import Mathlib

/-
  Shallow embedding of the Alkosto wait-optimizer estimation engine
  (src/index.ts) and verification of its specification claims.

  Mode A (purchase_rate) is embedded over ℚ: the source performs only
  field arithmetic there, so every value is exactly representable and the
  embedding is executable.  Mode B (winner_timestamps) needs sqrt/log/exp
  and is embedded over ℝ; timestamp parsing stays in ℕ/ℚ and is
  executable.  The JavaScript host function Date.parse is not part of the
  repository, so it is abstracted as an oracle parameter
  dp : String → Option ℚ returning epoch milliseconds, exactly as the
  engine consumes it.
-/

namespace Alkosto

inductive PurchaseModel where
  | global
  | per_lane
deriving DecidableEq

inductive CadenceModel where
  | regular
  | mixed
  | random
deriving DecidableEq

/-- EPSILON = 1e-9 from src/index.ts line 66. -/
def EPSILON {α : Type} [DivisionRing α] : α := 1 / 1000000000

/-- clamp from src/index.ts lines 68-70: Math.max(low, Math.min(high, value)). -/
def clamp {α : Type} [LinearOrder α] (value low high : α) : α :=
  max low (min high value)

/-- round from src/index.ts lines 72-75: Math.round(value * 10^d) / 10^d,
    with JavaScript Math.round x = ⌊x + 1/2⌋. -/
def roundTo {α : Type} [LinearOrderedField α] [FloorRing α] (decimals : ℕ) (value : α) : α :=
  (⌊value * 10 ^ decimals + 1 / 2⌋ : ℤ) / 10 ^ decimals

/-- thresholdFromDay from src/index.ts lines 99-101. -/
def thresholdFromDay {α : Type} [DivisionRing α] (isWeekendOrHoliday : Bool) : α :=
  if isWeekendOrHoliday then 50 else 25

/-- WaitEstimates record from src/index.ts lines 22-28. -/
structure WaitEstimates (α : Type) where
  mean_interval_between_winners : α
  expected_wait_to_next_winner : α
  p50_wait_to_next_winner : α
  p75_wait_to_next_winner : α
  p90_wait_to_next_winner : α

/-- Recommendation block (numeric fields) from src/index.ts lines 49-54. -/
structure Recommendation (α : Type) where
  optimal_wait_minutes : α
  probability_next_winner_within_optimal_wait : α

/-- economics block (numeric fields) from src/index.ts lines 55-62. -/
structure Economics (α : Type) where
  expected_value_for_optimal_wait : α
  expected_time_cost_for_optimal_wait : α
  net_expected_value_for_optimal_wait : α
  value_expected_per_minute : α
  break_even_wait_minutes : α

/-- uniformWaitStats from src/index.ts lines 103-112. -/
def uniformWaitStats {α : Type} [LinearOrderedField α] [FloorRing α]
    (intervalMinutes : α) : WaitEstimates α :=
  let t := max intervalMinutes 0
  { mean_interval_between_winners := roundTo 2 t
    expected_wait_to_next_winner := roundTo 2 (0.5 * t)
    p50_wait_to_next_winner := roundTo 2 (0.5 * t)
    p75_wait_to_next_winner := roundTo 2 (0.75 * t)
    p90_wait_to_next_winner := roundTo 2 (0.9 * t) }

/-- probabilityWithinUniform from src/index.ts lines 197-202. -/
def probabilityWithinUniform {α : Type} [LinearOrderedField α]
    (interval wait : α) : α :=
  if interval ≤ 0 then 1 else clamp (wait / interval) 0 1

/-- withEconomics from src/index.ts lines 211-250, as the Option-valued
    economics block it attaches: none exactly when the guard at lines
    219-226 returns early.  wait is the already-rounded
    output.recommendation.optimal_wait_minutes the source reads at
    line 228. -/
def economicsFor {α : Type} [LinearOrderedField α] [FloorRing α]
    (expectedBonusValue timeValuePerMinute : Option α)
    (probabilityWithinWait meanInterval maxWait wait : α) : Option (Economics α) :=
  match expectedBonusValue, timeValuePerMinute with
  | some b, some t =>
    if b < 0 ∨ t < 0 then none
    else some
      { expected_value_for_optimal_wait := roundTo 2 (probabilityWithinWait * b)
        expected_time_cost_for_optimal_wait := roundTo 2 (wait * t)
        net_expected_value_for_optimal_wait :=
          roundTo 2 (probabilityWithinWait * b - wait * t)
        value_expected_per_minute := roundTo 2 (b / max meanInterval EPSILON)
        break_even_wait_minutes :=
          roundTo 2 (if t = 0 then maxWait else clamp (b / t) 0 maxWait) }
  | _, _ => none

/-! ## Mode A: purchase_rate (src/index.ts lines 252-342), over ℚ -/

/-- Mode A slice of the Inputs record (src/index.ts lines 5-20): fields the
    purchase_rate branch reads.  number-or-null-or-absent fields are Option. -/
structure AInputs where
  is_weekend_or_holiday : Bool
  model : PurchaseModel
  observed_purchases : ℚ
  observed_minutes : ℚ
  observed_lanes : ℚ
  total_open_lanes : Option ℚ
  confidence_buffer : Option ℚ
  target_hit_probability : Option ℚ
  max_wait_minutes : Option ℚ
  expected_bonus_value : Option ℚ
  time_value_per_minute : Option ℚ

/-- rates block from src/index.ts lines 35-40. -/
structure ARates where
  purchases_per_minute_observed : ℚ
  purchases_per_minute_estimated : ℚ
  purchases_per_minute_conservative : ℚ
  lane_scale_factor : ℚ

/-- Numeric output of Mode A (src/index.ts lines 303-330). -/
structure OutputA where
  k_threshold_clients : ℚ
  probability_win_per_attempt : ℚ
  rates : ARates
  wait_estimates_minutes : WaitEstimates ℚ
  recommendation : Recommendation ℚ
  economics : Option (Economics ℚ)

/-- maxWait local, src/index.ts line 277: Math.max(max_wait_minutes ?? 30, 1). -/
def aMaxWait (inp : AInputs) : ℚ := max (inp.max_wait_minutes.getD 30) 1

/-- confidenceBuffer local, src/index.ts line 278. -/
def aConfidenceBuffer (inp : AInputs) : ℚ := clamp (inp.confidence_buffer.getD 0.2) 0 0.9

/-- probabilityTarget local, src/index.ts line 279. -/
def aProbabilityTarget (inp : AInputs) : ℚ :=
  clamp (inp.target_hit_probability.getD 0.75) 0.5 0.99

/-- kThreshold local, src/index.ts line 280. -/
def aKThreshold (inp : AInputs) : ℚ := thresholdFromDay inp.is_weekend_or_holiday

/-- lambdaObserved local, src/index.ts line 282. -/
def aLambdaObserved (inp : AInputs) : ℚ := inp.observed_purchases / inp.observed_minutes

/-- laneScale local, src/index.ts lines 283-289: starts at 1 and is replaced
    by total/observed only for the global model with a numeric
    total_open_lanes that is at least observed_lanes. -/
def aLaneScale (inp : AInputs) : ℚ :=
  match inp.model, inp.total_open_lanes with
  | PurchaseModel.global, some t =>
    if inp.observed_lanes ≤ t then t / inp.observed_lanes else 1
  | _, _ => 1

/-- lambdaEstimated local, src/index.ts lines 291-294. -/
def aLambdaEstimated (inp : AInputs) : ℚ :=
  match inp.model with
  | PurchaseModel.global => aLambdaObserved inp * aLaneScale inp
  | PurchaseModel.per_lane => aLambdaObserved inp / inp.observed_lanes

/-- lambdaConservative local, src/index.ts line 295. -/
def aLambdaConservative (inp : AInputs) : ℚ :=
  aLambdaEstimated inp * (1 - aConfidenceBuffer inp)

/-- meanInterval local, src/index.ts line 296. -/
def aMeanInterval (inp : AInputs) : ℚ :=
  aKThreshold inp / max (aLambdaConservative inp) EPSILON

/-- waitForTarget local, src/index.ts line 299. -/
def aWaitForTarget (inp : AInputs) : ℚ := aMeanInterval inp * aProbabilityTarget inp

/-- optimalWait local, src/index.ts line 300. -/
def aOptimalWait (inp : AInputs) : ℚ := clamp (aWaitForTarget inp) 1 (aMaxWait inp)

/-- probabilityWithinOptimal local, src/index.ts line 301. -/
def aProbabilityWithinOptimal (inp : AInputs) : ℚ :=
  probabilityWithinUniform (aMeanInterval inp) (aOptimalWait inp)

/-- The Mode A result object, src/index.ts lines 303-339 (numeric fields,
    with withEconomics applied as at lines 332-339). -/
def assembleA (inp : AInputs) : OutputA :=
  { k_threshold_clients := aKThreshold inp
    probability_win_per_attempt := roundTo 4 (1 / aKThreshold inp)
    rates :=
      { purchases_per_minute_observed := roundTo 2 (aLambdaObserved inp)
        purchases_per_minute_estimated := roundTo 2 (aLambdaEstimated inp)
        purchases_per_minute_conservative := roundTo 2 (aLambdaConservative inp)
        lane_scale_factor := roundTo 2 (aLaneScale inp) }
    wait_estimates_minutes := uniformWaitStats (aMeanInterval inp)
    recommendation :=
      { optimal_wait_minutes := roundTo 2 (aOptimalWait inp)
        probability_next_winner_within_optimal_wait :=
          roundTo 4 (aProbabilityWithinOptimal inp) }
    economics :=
      economicsFor inp.expected_bonus_value inp.time_value_per_minute
        (aProbabilityWithinOptimal inp) (aMeanInterval inp) (aMaxWait inp)
        (roundTo 2 (aOptimalWait inp)) }

/-- runPurchaseRateMode from src/index.ts lines 252-342: the assert calls at
    lines 258-269 become error results (thrown ValidationError), in source
    order. -/
def runPurchaseRateMode (inp : AInputs) : Except String OutputA :=
  if inp.observed_purchases ≤ 0 then Except.error "observed_purchases debe ser > 0."
  else if inp.observed_minutes ≤ 0 then Except.error "observed_minutes debe ser > 0."
  else if inp.observed_lanes ≤ 0 then Except.error "observed_lanes debe ser > 0."
  else Except.ok (assembleA inp)

/-! ## Timestamp parsing (src/index.ts lines 65, 125-195), executable -/

/-- Splits a character list at every colon, the only separator the regex
    HMS_RE (src/index.ts line 65) admits between its digit groups. -/
def splitOnColon : List Char → List (List Char)
  | [] => [[]]
  | c :: rest =>
    match splitOnColon rest with
    | [] => [[c]]
    | g :: gs => if c = ':' then [] :: g :: gs else (c :: g) :: gs

/-- Value of a digit-only character group, as Number() reads a match group. -/
def digitsToNat (cs : List Char) : ℕ :=
  cs.foldl (fun n c => 10 * n + (c.toNat - 48)) 0

/-- A regex \d{lo,hi} group: only ASCII digits, length within bounds. -/
def digitGroup (cs : List Char) (lo hi : ℕ) : Bool :=
  cs.all Char.isDigit && lo ≤ cs.length && cs.length ≤ hi

/-- parseHmsToSeconds from src/index.ts lines 125-147: match against
    HMS_RE = ^(\d{1,2}):(\d{2})(?::(\d{2}))?$ with an absent seconds group
    read as 0, then range-check hour ≤ 23, minute ≤ 59, second ≤ 59
    (the lower bounds and NaN checks cannot fire on digit groups). -/
def parseHmsToSeconds (s : String) : Option ℕ :=
  match splitOnColon s.toList with
  | [h, m] =>
    if digitGroup h 1 2 && digitGroup m 2 2 then
      let hour := digitsToNat h
      let minute := digitsToNat m
      if hour ≤ 23 && minute ≤ 59 then some (hour * 3600 + minute * 60) else none
    else none
  | [h, m, sec] =>
    if digitGroup h 1 2 && digitGroup m 2 2 && digitGroup sec 2 2 then
      let hour := digitsToNat h
      let minute := digitsToNat m
      let second := digitsToNat sec
      if hour ≤ 23 && minute ≤ 59 && second ≤ 59 then
        some (hour * 3600 + minute * 60 + second)
      else none
    else none
  | _ => none

/-- The while loop of src/index.ts lines 165-167: add 24*3600 seconds to
    candidate until it exceeds current. -/
def advanceBeyond (current candidate : ℕ) : ℕ :=
  if candidate ≤ current then advanceBeyond current (candidate + 24 * 3600)
  else candidate
termination_by current + 1 - candidate
decreasing_by omega

/-- The for loop of src/index.ts lines 163-170: each subsequent sample is
    advanced past the running cursor and becomes the new cursor. -/
def monotonicFrom (current : ℕ) : List ℕ → List ℕ
  | [] => []
  | c :: cs => advanceBeyond current c :: monotonicFrom (advanceBeyond current c) cs

/-- Collapses a list of optional values, none when any entry is none: the
    shape of the allHms check (line 156) and the Number.isFinite check over
    Date.parse results (lines 176-179). -/
def seqOptions {β : Type} : List (Option β) → Option (List β)
  | [] => some []
  | none :: _ => none
  | some b :: rest => (seqOptions rest).map (fun l => b :: l)

/-- parseTimestampsToMonotonicMinutes from src/index.ts lines 149-187.
    dp abstracts the JavaScript host function Date.parse (epoch
    milliseconds, none for NaN); it is not code of this repository.
    Errors correspond to the assert calls at lines 150-153, 176-179
    and 180-185. -/
def parseTimestampsToMonotonicMinutes (dp : String → Option ℚ)
    (ts : List String) : Except String (List ℚ) :=
  if ts.length < 2 then
    Except.error "Necesitas al menos 2 timestamps para estimar intervalos."
  else
    match seqOptions (ts.map parseHmsToSeconds) with
    | some (s0 :: rest) =>
      Except.ok ((s0 :: monotonicFrom s0 rest).map (fun n : ℕ => (n : ℚ) / 60))
    | some [] =>
      Except.error "Necesitas al menos 2 timestamps para estimar intervalos."
    | none =>
      match seqOptions (ts.map dp) with
      | none =>
        Except.error "Formato de timestamp invalido. Usa HH:MM o ISO datetime."
      | some parsed =>
        if List.Chain' (fun a b => a < b) parsed then
          Except.ok (parsed.map (fun v => v / 60000))
        else
          Except.error "Los timestamps ISO deben venir ordenados de menor a mayor."

/-- intervalsFromTimelineMinutes from src/index.ts lines 189-195. -/
def intervalsFromTimeline {α : Type} [LinearOrderedField α] : List α → List α
  | a :: b :: rest => (b - a) :: intervalsFromTimeline (b :: rest)
  | _ => []

/-! ## Mode B: winner_timestamps (src/index.ts lines 344-474), over ℝ -/

/-- mean from src/index.ts lines 83-86 (the engine only calls it on
    nonempty lists, guarded by the length assert). -/
noncomputable def mean (l : List ℝ) : ℝ := l.sum / l.length

/-- sampleStd from src/index.ts lines 88-97: Bessel-corrected sample
    standard deviation, 0 for fewer than two values. -/
noncomputable def sampleStd (l : List ℝ) : ℝ :=
  if l.length < 2 then 0
  else Real.sqrt ((l.map (fun v => (v - mean l) ^ 2)).sum / ((l.length : ℝ) - 1))

/-- The cadence selection of src/index.ts lines 360-365: mixed unless
    cv < 0.4 (regular) or cv > 0.7 (random). -/
noncomputable def cadenceModelOfCv (cv : ℝ) : CadenceModel :=
  if cv < 0.4 then CadenceModel.regular
  else if cv > 0.7 then CadenceModel.random
  else CadenceModel.mixed

/-- expWaitStats from src/index.ts lines 114-123. -/
noncomputable def expWaitStats (meanIntervalMinutes : ℝ) : WaitEstimates ℝ :=
  let m := max meanIntervalMinutes EPSILON
  { mean_interval_between_winners := roundTo 2 m
    expected_wait_to_next_winner := roundTo 2 m
    p50_wait_to_next_winner := roundTo 2 (-m * Real.log (1 - 0.5))
    p75_wait_to_next_winner := roundTo 2 (-m * Real.log (1 - 0.75))
    p90_wait_to_next_winner := roundTo 2 (-m * Real.log (1 - 0.9)) }

/-- probabilityWithinExponential from src/index.ts lines 204-209. -/
noncomputable def probabilityWithinExponential (meanInterval wait : ℝ) : ℝ :=
  if meanInterval ≤ 0 then 1 else 1 - Real.exp (-wait / meanInterval)

/-- waitStatsRegular from src/index.ts lines 370-376. -/
noncomputable def regularWaitStats (intervalMean regularRemaining : ℝ) : WaitEstimates ℝ :=
  { mean_interval_between_winners := roundTo 2 intervalMean
    expected_wait_to_next_winner := roundTo 2 regularRemaining
    p50_wait_to_next_winner := roundTo 2 regularRemaining
    p75_wait_to_next_winner := roundTo 2 regularRemaining
    p90_wait_to_next_winner := roundTo 2 regularRemaining }

/-- Mode B slice of the Inputs record (src/index.ts lines 5-20). -/
structure BInputs where
  winner_timestamps : List String
  elapsed_since_last_winner_minutes : Option ℝ
  target_hit_probability : Option ℝ
  max_wait_minutes : Option ℝ
  is_weekend_or_holiday : Option Bool
  expected_bonus_value : Option ℝ
  time_value_per_minute : Option ℝ

/-- cadence_analysis block from src/index.ts lines 41-47. -/
structure CadenceAnalysis where
  intervals_minutes : List ℝ
  interval_mean_minutes : ℝ
  interval_std_minutes : ℝ
  interval_cv : ℝ
  cadence_model : CadenceModel

/-- Numeric output of Mode B (src/index.ts lines 430-462). -/
structure OutputB where
  k_threshold_clients : Option ℝ
  probability_win_per_attempt : Option ℝ
  cadence_analysis : CadenceAnalysis
  wait_estimates_minutes : WaitEstimates ℝ
  recommendation : Recommendation ℝ
  economics : Option (Economics ℝ)

/-- maxWait local, src/index.ts line 351. -/
noncomputable def bMaxWait (inp : BInputs) : ℝ := max (inp.max_wait_minutes.getD 30) 1

/-- probabilityTarget local, src/index.ts line 352. -/
noncomputable def bProbabilityTarget (inp : BInputs) : ℝ :=
  clamp (inp.target_hit_probability.getD 0.75) 0.5 0.99

/-- elapsed local, src/index.ts line 353. -/
noncomputable def bElapsed (inp : BInputs) : ℝ :=
  max (inp.elapsed_since_last_winner_minutes.getD 0) 0

/-- intervals local, src/index.ts line 355, on a parsed timeline. -/
noncomputable def bIntervals (tl : List ℚ) : List ℝ :=
  intervalsFromTimeline (tl.map (fun q : ℚ => (q : ℝ)))

/-- intervalMean local, src/index.ts line 356. -/
noncomputable def bIntervalMean (tl : List ℚ) : ℝ := mean (bIntervals tl)

/-- intervalStd local, src/index.ts line 357. -/
noncomputable def bIntervalStd (tl : List ℚ) : ℝ := sampleStd (bIntervals tl)

/-- intervalCv local, src/index.ts line 358. -/
noncomputable def bIntervalCv (tl : List ℚ) : ℝ :=
  bIntervalStd tl / max (bIntervalMean tl) EPSILON

/-- cadenceModel local, src/index.ts lines 360-365. -/
noncomputable def bCadence (tl : List ℚ) : CadenceModel :=
  cadenceModelOfCv (bIntervalCv tl)

/-- regularRemaining local, src/index.ts line 367. -/
noncomputable def bRegularRemaining (inp : BInputs) (tl : List ℚ) : ℝ :=
  max (bIntervalMean tl - bElapsed inp) 0

/-- waitStats local, src/index.ts lines 370-404: regular stats, replaced by
    the exponential stats for random cadence and by the field-by-field
    average for mixed cadence (whose expected-wait entry averages against
    randomExpectedRemaining = intervalMean from line 368). -/
noncomputable def bWaitStats (inp : BInputs) (tl : List ℚ) : WaitEstimates ℝ :=
  match bCadence tl with
  | CadenceModel.regular => regularWaitStats (bIntervalMean tl) (bRegularRemaining inp tl)
  | CadenceModel.random => expWaitStats (bIntervalMean tl)
  | CadenceModel.mixed =>
    { mean_interval_between_winners := roundTo 2 (bIntervalMean tl)
      expected_wait_to_next_winner :=
        roundTo 2
          (((regularWaitStats (bIntervalMean tl) (bRegularRemaining inp tl)).expected_wait_to_next_winner
            + bIntervalMean tl) / 2)
      p50_wait_to_next_winner :=
        roundTo 2
          (((regularWaitStats (bIntervalMean tl) (bRegularRemaining inp tl)).p50_wait_to_next_winner
            + (expWaitStats (bIntervalMean tl)).p50_wait_to_next_winner) / 2)
      p75_wait_to_next_winner :=
        roundTo 2
          (((regularWaitStats (bIntervalMean tl) (bRegularRemaining inp tl)).p75_wait_to_next_winner
            + (expWaitStats (bIntervalMean tl)).p75_wait_to_next_winner) / 2)
      p90_wait_to_next_winner :=
        roundTo 2
          (((regularWaitStats (bIntervalMean tl) (bRegularRemaining inp tl)).p90_wait_to_next_winner
            + (expWaitStats (bIntervalMean tl)).p90_wait_to_next_winner) / 2) }

/-- randomWaitForTarget local, src/index.ts line 406. -/
noncomputable def bRandomWaitForTarget (inp : BInputs) (tl : List ℚ) : ℝ :=
  -bIntervalMean tl * Real.log (1 - bProbabilityTarget inp)

/-- optimalWait local, src/index.ts lines 407-415: the per-cadence wait
    clamped to [0, maxWait]. -/
noncomputable def bOptimalWait (inp : BInputs) (tl : List ℚ) : ℝ :=
  clamp
    (match bCadence tl with
     | CadenceModel.regular => bRegularRemaining inp tl
     | CadenceModel.random => bRandomWaitForTarget inp tl
     | CadenceModel.mixed =>
       (bRegularRemaining inp tl + bRandomWaitForTarget inp tl) / 2)
    0 (bMaxWait inp)

/-- regularProbability local, src/index.ts lines 417-420. -/
noncomputable def bRegularProbability (inp : BInputs) (tl : List ℚ) : ℝ :=
  if bRegularRemaining inp tl ≤ EPSILON then 1
  else clamp (bOptimalWait inp tl / max (bRegularRemaining inp tl) EPSILON) 0 1

/-- randomProbability local, src/index.ts line 421. -/
noncomputable def bRandomProbability (inp : BInputs) (tl : List ℚ) : ℝ :=
  probabilityWithinExponential (bIntervalMean tl) (bOptimalWait inp tl)

/-- probabilityWithinOptimal local, src/index.ts lines 423-428. -/
noncomputable def bProbabilityWithinOptimal (inp : BInputs) (tl : List ℚ) : ℝ :=
  match bCadence tl with
  | CadenceModel.regular => bRegularProbability inp tl
  | CadenceModel.random => bRandomProbability inp tl
  | CadenceModel.mixed =>
    (bRegularProbability inp tl + bRandomProbability inp tl) / 2

/-- The Mode B result object, src/index.ts lines 430-471 (numeric fields,
    the optional k-threshold block of lines 458-462 and withEconomics as
    applied at lines 464-471). -/
noncomputable def assembleB (inp : BInputs) (tl : List ℚ) : OutputB :=
  { k_threshold_clients := inp.is_weekend_or_holiday.map (fun b => thresholdFromDay b)
    probability_win_per_attempt :=
      inp.is_weekend_or_holiday.map (fun b => roundTo 4 (1 / thresholdFromDay b))
    cadence_analysis :=
      { intervals_minutes := (bIntervals tl).map (fun v => roundTo 2 v)
        interval_mean_minutes := roundTo 2 (bIntervalMean tl)
        interval_std_minutes := roundTo 2 (bIntervalStd tl)
        interval_cv := roundTo 2 (bIntervalCv tl)
        cadence_model := bCadence tl }
    wait_estimates_minutes := bWaitStats inp tl
    recommendation :=
      { optimal_wait_minutes := roundTo 2 (bOptimalWait inp tl)
        probability_next_winner_within_optimal_wait :=
          roundTo 4 (bProbabilityWithinOptimal inp tl) }
    economics :=
      economicsFor inp.expected_bonus_value inp.time_value_per_minute
        (bProbabilityWithinOptimal inp tl) (bIntervalMean tl) (bMaxWait inp)
        (roundTo 2 (bOptimalWait inp tl)) }

/-- runWinnerTimestampsMode from src/index.ts lines 344-474: the length
    assert at lines 345-348 and the parse of line 354 are the only error
    sources; everything afterwards is total. -/
noncomputable def runWinnerTimestampsMode (dp : String → Option ℚ)
    (inp : BInputs) : Except String OutputB :=
  if inp.winner_timestamps.length < 2 then
    Except.error
      "winner_timestamps debe tener al menos 2 elementos en mode=winner_timestamps."
  else
    (parseTimestampsToMonotonicMinutes dp inp.winner_timestamps).map
      (fun tl => assembleB inp tl)

/-! ## Helper lemmas -/

theorem advanceBeyond_gt (current candidate : ℕ) :
    current < advanceBeyond current candidate := by
  rw [advanceBeyond]
  split
  · exact advanceBeyond_gt current (candidate + 24 * 3600)
  · omega
termination_by current + 1 - candidate
decreasing_by omega

theorem advanceBeyond_done {current candidate : ℕ} (h : current < candidate) :
    advanceBeyond current candidate = candidate := by
  rw [advanceBeyond, if_neg (by omega)]

theorem advanceBeyond_step {current candidate : ℕ} (h : candidate ≤ current) :
    advanceBeyond current candidate = advanceBeyond current (candidate + 24 * 3600) := by
  conv_lhs => rw [advanceBeyond]
  rw [if_pos h]

theorem chain_monotonicFrom (current : ℕ) (l : List ℕ) :
    List.Chain (fun a b => a < b) current (monotonicFrom current l) := by
  induction l generalizing current with
  | nil => exact List.Chain.nil
  | cons c cs ih =>
    simp only [monotonicFrom]
    exact List.Chain.cons (advanceBeyond_gt current c) (ih _)

theorem monotonicFrom_length (current : ℕ) (l : List ℕ) :
    (monotonicFrom current l).length = l.length := by
  induction l generalizing current with
  | nil => rfl
  | cons c cs ih => simp only [monotonicFrom, List.length_cons, ih]

theorem seqOptions_length {β : Type} {l : List (Option β)} {l2 : List β}
    (h : seqOptions l = some l2) : l2.length = l.length := by
  induction l generalizing l2 with
  | nil => simp only [seqOptions, Option.some.injEq] at h; subst h; rfl
  | cons o rest ih =>
    cases o with
    | none => exact Option.noConfusion h
    | some b =>
      simp only [seqOptions, Option.map_eq_some'] at h
      obtain ⟨l3, h3, rfl⟩ := h
      simp [ih h3]

theorem seqOptions_none_of_mem {β : Type} {l : List (Option β)}
    (h : none ∈ l) : seqOptions l = none := by
  induction l with
  | nil => cases h
  | cons o rest ih =>
    cases o with
    | none => rfl
    | some b =>
      rcases List.mem_cons.mp h with h1 | h1
      · exact Option.noConfusion h1
      · simp only [seqOptions, ih h1, Option.map_none']

theorem intervalsFromTimeline_length {α : Type} [LinearOrderedField α] :
    ∀ l : List α, (intervalsFromTimeline l).length = l.length - 1
  | [] => rfl
  | [_] => rfl
  | a :: b :: rest => by
    simp only [intervalsFromTimeline, List.length_cons,
      intervalsFromTimeline_length (b :: rest)]
    omega

theorem intervals_pos {α : Type} [LinearOrderedField α] :
    ∀ {l : List α}, l.Chain' (fun a b => a < b) →
      ∀ x ∈ intervalsFromTimeline l, 0 < x
  | [], _, x, hx => by simp [intervalsFromTimeline] at hx
  | [_], _, x, hx => by simp [intervalsFromTimeline] at hx
  | a :: b :: rest, h, x, hx => by
    rw [List.chain'_cons] at h
    simp only [intervalsFromTimeline, List.mem_cons] at hx
    rcases hx with rfl | hx
    · linarith [h.1]
    · exact intervals_pos h.2 x hx

theorem parse_eq_of_short {dp : String → Option ℚ} {ts : List String}
    (hlen : ts.length < 2) :
    parseTimestampsToMonotonicMinutes dp ts =
      Except.error "Necesitas al menos 2 timestamps para estimar intervalos." := by
  rw [parseTimestampsToMonotonicMinutes, if_pos hlen]

theorem parse_eq_of_bare {dp : String → Option ℚ} {ts : List String} {s0 : ℕ}
    {rest : List ℕ} (hlen : ¬ ts.length < 2)
    (hb : seqOptions (ts.map parseHmsToSeconds) = some (s0 :: rest)) :
    parseTimestampsToMonotonicMinutes dp ts =
      Except.ok ((s0 :: monotonicFrom s0 rest).map (fun n : ℕ => (n : ℚ) / 60)) := by
  rw [parseTimestampsToMonotonicMinutes, if_neg hlen, hb]

theorem parse_eq_of_iso_fail {dp : String → Option ℚ} {ts : List String}
    (hlen : ¬ ts.length < 2) (hb : seqOptions (ts.map parseHmsToSeconds) = none)
    (hd : seqOptions (ts.map dp) = none) :
    parseTimestampsToMonotonicMinutes dp ts =
      Except.error "Formato de timestamp invalido. Usa HH:MM o ISO datetime." := by
  rw [parseTimestampsToMonotonicMinutes, if_neg hlen, hb, hd]

theorem parse_eq_of_iso {dp : String → Option ℚ} {ts : List String}
    {parsed : List ℚ} (hlen : ¬ ts.length < 2)
    (hb : seqOptions (ts.map parseHmsToSeconds) = none)
    (hd : seqOptions (ts.map dp) = some parsed) :
    parseTimestampsToMonotonicMinutes dp ts =
      if List.Chain' (fun a b => a < b) parsed then
        Except.ok (parsed.map (fun v => v / 60000))
      else
        Except.error "Los timestamps ISO deben venir ordenados de menor a mayor." := by
  rw [parseTimestampsToMonotonicMinutes, if_neg hlen, hb, hd]

theorem parse_ok_spec {dp : String → Option ℚ} {ts : List String} {tl : List ℚ}
    (h : parseTimestampsToMonotonicMinutes dp ts = Except.ok tl) :
    List.Chain' (fun a b => a < b) tl ∧ tl.length = ts.length ∧ 2 ≤ ts.length := by
  by_cases hlen : ts.length < 2
  · rw [parse_eq_of_short hlen] at h
    exact Except.noConfusion h
  rcases hb : seqOptions (ts.map parseHmsToSeconds) with _ | (_ | ⟨s0, rest⟩)
  · rcases hd : seqOptions (ts.map dp) with _ | parsed
    · rw [parse_eq_of_iso_fail hlen hb hd] at h
      exact Except.noConfusion h
    · rw [parse_eq_of_iso hlen hb hd] at h
      by_cases hchain : List.Chain' (fun a b : ℚ => a < b) parsed
      · rw [if_pos hchain, Except.ok.injEq] at h
        subst h
        refine ⟨?_, ?_, by omega⟩
        · rw [List.chain'_map]
          refine hchain.imp fun a b hab => ?_
          exact div_lt_div_of_pos_right hab (by norm_num)
        · rw [List.length_map, seqOptions_length hd, List.length_map]
      · rw [if_neg hchain] at h
        exact Except.noConfusion h
  · rw [parseTimestampsToMonotonicMinutes, if_neg hlen, hb] at h
    exact Except.noConfusion h
  · rw [parse_eq_of_bare hlen hb, Except.ok.injEq] at h
    subst h
    have hlen2 : (s0 :: rest).length = ts.length := by
      rw [seqOptions_length hb, List.length_map]
    refine ⟨?_, ?_, by omega⟩
    · rw [List.chain'_map]
      have hch : List.Chain (fun a b : ℕ => a < b) s0 (monotonicFrom s0 rest) :=
        chain_monotonicFrom s0 rest
      have h2 : List.Chain' (fun a b : ℕ => a < b) (s0 :: monotonicFrom s0 rest) := hch
      refine h2.imp fun a b hab => ?_
      have hc : (a : ℚ) < (b : ℚ) := by exact_mod_cast hab
      exact div_lt_div_of_pos_right hc (by norm_num)
    · simp only [List.length_map, List.length_cons, monotonicFrom_length]
      simp only [List.length_cons] at hlen2
      omega

theorem parse_ok_run {dp : String → Option ℚ} {inp : BInputs} {tl : List ℚ}
    (h : parseTimestampsToMonotonicMinutes dp inp.winner_timestamps = Except.ok tl) :
    runWinnerTimestampsMode dp inp = Except.ok (assembleB inp tl) := by
  have hlen : ¬ inp.winner_timestamps.length < 2 := by
    intro hl
    rw [parseTimestampsToMonotonicMinutes, if_pos hl] at h
    exact Except.noConfusion h
  rw [runWinnerTimestampsMode, if_neg hlen, h]
  rfl

theorem run_b_ok {dp : String → Option ℚ} {inp : BInputs} {out : OutputB}
    (h : runWinnerTimestampsMode dp inp = Except.ok out) :
    ∃ tl, parseTimestampsToMonotonicMinutes dp inp.winner_timestamps = Except.ok tl ∧
      out = assembleB inp tl := by
  rw [runWinnerTimestampsMode] at h
  split at h
  · exact Except.noConfusion h
  · rcases hp : parseTimestampsToMonotonicMinutes dp inp.winner_timestamps with e | tl
    · rw [hp] at h
      exact Except.noConfusion h
    · rw [hp] at h
      rw [show Except.map (fun tl => assembleB inp tl) (Except.ok tl) =
        Except.ok (assembleB inp tl) from rfl, Except.ok.injEq] at h
      exact ⟨tl, rfl, h.symm⟩

theorem run_a_ok {inp : AInputs} {out : OutputA}
    (h : runPurchaseRateMode inp = Except.ok out) :
    0 < inp.observed_purchases ∧ 0 < inp.observed_minutes ∧
      0 < inp.observed_lanes ∧ out = assembleA inp := by
  rw [runPurchaseRateMode] at h
  by_cases h1 : inp.observed_purchases ≤ 0
  · rw [if_pos h1] at h; exact Except.noConfusion h
  · rw [if_neg h1] at h
    by_cases h2 : inp.observed_minutes ≤ 0
    · rw [if_pos h2] at h; exact Except.noConfusion h
    · rw [if_neg h2] at h
      by_cases h3 : inp.observed_lanes ≤ 0
      · rw [if_pos h3] at h; exact Except.noConfusion h
      · rw [if_neg h3, Except.ok.injEq] at h
        exact ⟨not_le.mp h1, not_le.mp h2, not_le.mp h3, h.symm⟩

theorem EPSILON_pos {α : Type} [LinearOrderedField α] : (0 : α) < EPSILON := by
  rw [EPSILON]; norm_num

theorem roundTo_nonneg {α : Type} [LinearOrderedField α] [FloorRing α]
    {d : ℕ} {x : α} (hx : 0 ≤ x) : 0 ≤ roundTo d x := by
  rw [roundTo]
  apply div_nonneg _ (by positivity)
  have h0 : (0 : ℤ) ≤ ⌊x * 10 ^ d + 1 / 2⌋ := by
    rw [Int.le_floor]
    push_cast
    positivity
  exact_mod_cast h0

theorem roundTo_le {α : Type} [LinearOrderedField α] [FloorRing α]
    (d : ℕ) (x : α) : roundTo d x ≤ x + 1 / (2 * 10 ^ d) := by
  rw [roundTo, div_le_iff (by positivity : (0:α) < 10 ^ d)]
  calc ((⌊x * 10 ^ d + 1 / 2⌋ : ℤ) : α) ≤ x * 10 ^ d + 1 / 2 := Int.floor_le _
  _ = (x + 1 / (2 * 10 ^ d)) * 10 ^ d := by field_simp; ring

theorem intCast_le_roundTo {α : Type} [LinearOrderedField α] [FloorRing α]
    {d : ℕ} {x : α} {n : ℤ} (h : (n : α) ≤ x) : (n : α) ≤ roundTo d x := by
  rw [roundTo, le_div_iff (by positivity : (0:α) < 10 ^ d)]
  have hfl : (n * 10 ^ d : ℤ) ≤ ⌊x * 10 ^ d + 1 / 2⌋ := by
    rw [Int.le_floor]
    push_cast
    have h10 : (0:α) ≤ 10 ^ d := by positivity
    nlinarith
  calc (n : α) * 10 ^ d = ((n * 10 ^ d : ℤ) : α) := by push_cast; ring
  _ ≤ _ := by exact_mod_cast hfl

theorem roundTo_intCast {α : Type} [LinearOrderedField α] [FloorRing α]
    (d : ℕ) (n : ℤ) : roundTo d ((n : ℤ) : α) = n := by
  rw [roundTo]
  have hfl : ⌊(n : α) * 10 ^ d + 1 / 2⌋ = n * 10 ^ d := by
    rw [Int.floor_eq_iff]
    constructor
    · push_cast; nlinarith [pow_pos (by norm_num : (0:α) < 10) d]
    · push_cast; nlinarith [pow_pos (by norm_num : (0:α) < 10) d]
  rw [hfl]
  push_cast
  field_simp

theorem roundTo_one {α : Type} [LinearOrderedField α] [FloorRing α] (d : ℕ) :
    roundTo d (1 : α) = 1 := by
  have h := roundTo_intCast (α := α) d 1
  push_cast at h
  exact h

theorem le_clamp {α : Type} [LinearOrder α] (value low high : α) :
    low ≤ clamp value low high := le_max_left _ _

theorem clamp_le {α : Type} [LinearOrder α] {low high : α} (value : α)
    (h : low ≤ high) : clamp value low high ≤ high :=
  max_le h (min_le_left _ _)

theorem clamp_nonneg {α : Type} [LinearOrderedField α] {low : α} (value high : α)
    (h : 0 ≤ low) : 0 ≤ clamp value low high :=
  le_trans h (le_clamp _ _ _)

theorem clamp_eq_self {α : Type} [LinearOrder α] {value low high : α}
    (h1 : low ≤ value) (h2 : value ≤ high) : clamp value low high = value := by
  rw [clamp, min_eq_right h2, max_eq_right h1]

theorem cadenceModelOfCv_regular {cv : ℝ} (h : cv < 0.4) :
    cadenceModelOfCv cv = CadenceModel.regular := by
  rw [cadenceModelOfCv, if_pos h]

theorem cadenceModelOfCv_mixed {cv : ℝ} (h1 : 0.4 ≤ cv) (h2 : cv ≤ 0.7) :
    cadenceModelOfCv cv = CadenceModel.mixed := by
  rw [cadenceModelOfCv, if_neg (not_lt.mpr h1), if_neg (not_lt.mpr h2)]

theorem cadenceModelOfCv_random {cv : ℝ} (h : 0.7 < cv) :
    cadenceModelOfCv cv = CadenceModel.random := by
  rw [cadenceModelOfCv, if_neg (by linarith), if_pos h]

theorem mean_pos {l : List ℝ} (hne : l ≠ []) (hpos : ∀ x ∈ l, 0 < x) :
    0 < mean l := by
  rw [mean]
  have hlen : 0 < (l.length : ℝ) := by
    exact_mod_cast List.length_pos.mpr hne
  exact div_pos (List.sum_pos l hpos hne) hlen

theorem bIntervals_chain {dp : String → Option ℚ} {ts : List String} {tl : List ℚ}
    (h : parseTimestampsToMonotonicMinutes dp ts = Except.ok tl) :
    (tl.map (fun q : ℚ => (q : ℝ))).Chain' (fun a b => a < b) := by
  rw [List.chain'_map]
  exact (parse_ok_spec h).1.imp fun a b hab => by exact_mod_cast hab

theorem bIntervals_pos {dp : String → Option ℚ} {ts : List String} {tl : List ℚ}
    (h : parseTimestampsToMonotonicMinutes dp ts = Except.ok tl) :
    ∀ x ∈ bIntervals tl, 0 < x := by
  rw [bIntervals]
  exact intervals_pos (bIntervals_chain h)

theorem bIntervals_ne_nil {dp : String → Option ℚ} {ts : List String} {tl : List ℚ}
    (h : parseTimestampsToMonotonicMinutes dp ts = Except.ok tl) :
    bIntervals tl ≠ [] := by
  obtain ⟨_, hlen, hts⟩ := parse_ok_spec h
  have : (bIntervals tl).length = tl.length - 1 := by
    rw [bIntervals, intervalsFromTimeline_length, List.length_map]
  intro hnil
  rw [hnil] at this
  simp at this
  omega

theorem bIntervalMean_pos {dp : String → Option ℚ} {ts : List String} {tl : List ℚ}
    (h : parseTimestampsToMonotonicMinutes dp ts = Except.ok tl) :
    0 < bIntervalMean tl :=
  mean_pos (bIntervals_ne_nil h) (bIntervals_pos h)

theorem aLaneScale_pos {inp : AInputs} (hl : 0 < inp.observed_lanes) :
    0 < aLaneScale inp := by
  rw [aLaneScale]
  split
  · split
    · rename_i hle
      exact div_pos (lt_of_lt_of_le hl hle) hl
    · norm_num
  · norm_num

theorem aConfidenceBuffer_le {inp : AInputs} : aConfidenceBuffer inp ≤ 0.9 := by
  rw [aConfidenceBuffer, clamp]
  exact max_le (by norm_num) (min_le_left _ _)

theorem aLambdaConservative_pos {inp : AInputs} (hp : 0 < inp.observed_purchases)
    (hm : 0 < inp.observed_minutes) (hl : 0 < inp.observed_lanes) :
    0 < aLambdaConservative inp := by
  have hobs : 0 < aLambdaObserved inp := div_pos hp hm
  have hest : 0 < aLambdaEstimated inp := by
    rw [aLambdaEstimated]
    cases hmod : inp.model
    · exact mul_pos hobs (aLaneScale_pos hl)
    · exact div_pos hobs hl
  have hbuf : aConfidenceBuffer inp ≤ 0.9 := aConfidenceBuffer_le
  rw [aLambdaConservative]
  have : (0:ℚ) < 1 - aConfidenceBuffer inp := by linarith
  exact mul_pos hest this

theorem aKThreshold_pos {inp : AInputs} : 0 < aKThreshold inp := by
  rw [aKThreshold, thresholdFromDay]
  split <;> norm_num

theorem aMeanInterval_pos {inp : AInputs} : 0 < aMeanInterval inp := by
  rw [aMeanInterval]
  exact div_pos aKThreshold_pos (lt_of_lt_of_le EPSILON_pos (le_max_right _ _))

theorem aMaxWait_ge_one {inp : AInputs} : 1 ≤ aMaxWait inp := le_max_right _ _

theorem bMaxWait_ge_one {inp : BInputs} : 1 ≤ bMaxWait inp := le_max_right _ _

theorem roundTo_eq_of {α : Type} [LinearOrderedField α] [FloorRing α] {d : ℕ}
    {x r : α} (n : ℤ) (h1 : (n : α) ≤ x * 10 ^ d + 1 / 2)
    (h2 : x * 10 ^ d + 1 / 2 < n + 1) (h3 : (n : α) / 10 ^ d = r) :
    roundTo d x = r := by
  rw [roundTo, Int.floor_eq_iff.mpr ⟨h1, h2⟩, h3]

theorem aProbabilityTarget_lb {inp : AInputs} : 1 / 2 ≤ aProbabilityTarget inp := by
  have h := le_clamp (inp.target_hit_probability.getD 0.75) (0.5 : ℚ) 0.99
  rw [aProbabilityTarget]
  linarith [h]

theorem aProbabilityTarget_ub {inp : AInputs} : aProbabilityTarget inp ≤ 99 / 100 := by
  have h : clamp (inp.target_hit_probability.getD 0.75) (0.5 : ℚ) 0.99 ≤ 0.99 :=
    clamp_le _ (by norm_num)
  rw [aProbabilityTarget]
  linarith [h]

theorem bCadence_eq {tl : List ℚ} :
    bCadence tl = cadenceModelOfCv (bIntervalCv tl) := rfl

theorem bWaitStats_of_regular {inp : BInputs} {tl : List ℚ}
    (hc : bCadence tl = CadenceModel.regular) :
    bWaitStats inp tl =
      regularWaitStats (bIntervalMean tl) (bRegularRemaining inp tl) := by
  simp only [bWaitStats]
  rw [hc]

theorem bWaitStats_of_random {inp : BInputs} {tl : List ℚ}
    (hc : bCadence tl = CadenceModel.random) :
    bWaitStats inp tl = expWaitStats (bIntervalMean tl) := by
  simp only [bWaitStats]
  rw [hc]

theorem bWaitStats_of_mixed {inp : BInputs} {tl : List ℚ}
    (hc : bCadence tl = CadenceModel.mixed) :
    bWaitStats inp tl =
      { mean_interval_between_winners := roundTo 2 (bIntervalMean tl)
        expected_wait_to_next_winner :=
          roundTo 2
            (((regularWaitStats (bIntervalMean tl) (bRegularRemaining inp tl)).expected_wait_to_next_winner
              + bIntervalMean tl) / 2)
        p50_wait_to_next_winner :=
          roundTo 2
            (((regularWaitStats (bIntervalMean tl) (bRegularRemaining inp tl)).p50_wait_to_next_winner
              + (expWaitStats (bIntervalMean tl)).p50_wait_to_next_winner) / 2)
        p75_wait_to_next_winner :=
          roundTo 2
            (((regularWaitStats (bIntervalMean tl) (bRegularRemaining inp tl)).p75_wait_to_next_winner
              + (expWaitStats (bIntervalMean tl)).p75_wait_to_next_winner) / 2)
        p90_wait_to_next_winner :=
          roundTo 2
            (((regularWaitStats (bIntervalMean tl) (bRegularRemaining inp tl)).p90_wait_to_next_winner
              + (expWaitStats (bIntervalMean tl)).p90_wait_to_next_winner) / 2) } := by
  simp only [bWaitStats]
  rw [hc]

theorem bOptimalWait_of_regular {inp : BInputs} {tl : List ℚ}
    (hc : bCadence tl = CadenceModel.regular) :
    bOptimalWait inp tl = clamp (bRegularRemaining inp tl) 0 (bMaxWait inp) := by
  simp only [bOptimalWait]
  rw [hc]

theorem bOptimalWait_of_random {inp : BInputs} {tl : List ℚ}
    (hc : bCadence tl = CadenceModel.random) :
    bOptimalWait inp tl = clamp (bRandomWaitForTarget inp tl) 0 (bMaxWait inp) := by
  simp only [bOptimalWait]
  rw [hc]

theorem bOptimalWait_of_mixed {inp : BInputs} {tl : List ℚ}
    (hc : bCadence tl = CadenceModel.mixed) :
    bOptimalWait inp tl =
      clamp ((bRegularRemaining inp tl + bRandomWaitForTarget inp tl) / 2)
        0 (bMaxWait inp) := by
  simp only [bOptimalWait]
  rw [hc]

theorem bProbability_of_regular {inp : BInputs} {tl : List ℚ}
    (hc : bCadence tl = CadenceModel.regular) :
    bProbabilityWithinOptimal inp tl = bRegularProbability inp tl := by
  simp only [bProbabilityWithinOptimal]
  rw [hc]

theorem bProbability_of_random {inp : BInputs} {tl : List ℚ}
    (hc : bCadence tl = CadenceModel.random) :
    bProbabilityWithinOptimal inp tl = bRandomProbability inp tl := by
  simp only [bProbabilityWithinOptimal]
  rw [hc]

theorem bProbability_of_mixed {inp : BInputs} {tl : List ℚ}
    (hc : bCadence tl = CadenceModel.mixed) :
    bProbabilityWithinOptimal inp tl =
      (bRegularProbability inp tl + bRandomProbability inp tl) / 2 := by
  simp only [bProbabilityWithinOptimal]
  rw [hc]

/-! ## Claims -/

/-- Input of spec §8 Scenario 1. -/
def c1Input : AInputs :=
  ⟨true, PurchaseModel.global, 5, 2, 5, some 15, some 0.2, some 0.75, some 30,
    none, none⟩

/-- C1: for the concrete Mode A input (weekend, global model, 5 purchases in
    2 minutes over 5 of 15 lanes, buffer 0.2, target 0.75, max wait 30) the
    engine returns K = 50, win probability 0.02, conservative rate 6.0,
    mean interval 25/3 reported as 8.33, optimal wait 6.25 and success
    probability 0.75. -/
theorem c1_purchase_rate_scenario :
    runPurchaseRateMode c1Input = Except.ok (assembleA c1Input) ∧
    (assembleA c1Input).k_threshold_clients = 50 ∧
    (assembleA c1Input).probability_win_per_attempt = 0.02 ∧
    (assembleA c1Input).rates.purchases_per_minute_conservative = 6 ∧
    aMeanInterval c1Input = 25 / 3 ∧
    (assembleA c1Input).wait_estimates_minutes.mean_interval_between_winners = 8.33 ∧
    (assembleA c1Input).recommendation.optimal_wait_minutes = 6.25 ∧
    (assembleA c1Input).recommendation.probability_next_winner_within_optimal_wait
      = 0.75 := by
  have hK : aKThreshold c1Input = 50 := by
    norm_num [aKThreshold, thresholdFromDay, c1Input]
  have hcons : aLambdaConservative c1Input = 6 := by
    norm_num [aLambdaConservative, aLambdaEstimated, aLambdaObserved, aLaneScale,
      aConfidenceBuffer, clamp, c1Input, max_def, min_def]
  have hT : aMeanInterval c1Input = 25 / 3 := by
    rw [aMeanInterval, hcons, hK, max_eq_left (by norm_num [EPSILON])]
    norm_num
  have hOW : aOptimalWait c1Input = 25 / 4 := by
    have hp : aProbabilityTarget c1Input = 3 / 4 := by
      norm_num [aProbabilityTarget, clamp, c1Input, max_def, min_def]
    have hmw : aMaxWait c1Input = 30 := by
      norm_num [aMaxWait, c1Input, max_def]
    rw [aOptimalWait, aWaitForTarget, hT, hp, hmw,
      show (25 : ℚ) / 3 * (3 / 4) = 25 / 4 by norm_num]
    exact clamp_eq_self (by norm_num) (by norm_num)
  have hPW : aProbabilityWithinOptimal c1Input = 3 / 4 := by
    rw [aProbabilityWithinOptimal, probabilityWithinUniform,
      if_neg (by rw [hT]; norm_num), hOW, hT]
    rw [show (25 : ℚ) / 4 / (25 / 3) = 3 / 4 by norm_num]
    exact clamp_eq_self (by norm_num) (by norm_num)
  refine ⟨rfl, hK, ?_, ?_, hT, ?_, ?_, ?_⟩
  · show roundTo 4 (1 / aKThreshold c1Input) = 0.02
    rw [hK]
    exact roundTo_eq_of 200 (by norm_num) (by norm_num) (by norm_num)
  · show roundTo 2 (aLambdaConservative c1Input) = 6
    rw [hcons]
    exact roundTo_eq_of 600 (by norm_num) (by norm_num) (by norm_num)
  · show roundTo 2 (max (aMeanInterval c1Input) 0) = 8.33
    rw [hT, max_eq_left (by norm_num)]
    exact roundTo_eq_of 833 (by norm_num) (by norm_num) (by norm_num)
  · show roundTo 2 (aOptimalWait c1Input) = 6.25
    rw [hOW]
    exact roundTo_eq_of 625 (by norm_num) (by norm_num) (by norm_num)
  · show roundTo 4 (aProbabilityWithinOptimal c1Input) = 0.75
    rw [hPW]
    exact roundTo_eq_of 7500 (by norm_num) (by norm_num) (by norm_num)

/-- C2: in Mode A under the global model the lane scale factor is
    total_open_lanes / observed_lanes when a numeric total_open_lanes is at
    least observed_lanes and 1 otherwise (also when absent), with
    lambda_est = lambda_obs times the scale; under the per_lane model
    lambda_est = lambda_obs / observed_lanes. -/
theorem c2_lane_scale_factor (inp : AInputs) (out : OutputA)
    (h : runPurchaseRateMode inp = Except.ok out) :
    (inp.model = PurchaseModel.global →
      (∀ t, inp.total_open_lanes = some t →
        (inp.observed_lanes ≤ t → aLaneScale inp = t / inp.observed_lanes) ∧
        (t < inp.observed_lanes → aLaneScale inp = 1)) ∧
      (inp.total_open_lanes = none → aLaneScale inp = 1) ∧
      aLambdaEstimated inp = aLambdaObserved inp * aLaneScale inp) ∧
    (inp.model = PurchaseModel.per_lane →
      aLambdaEstimated inp = aLambdaObserved inp / inp.observed_lanes) := by
  constructor
  · intro hg
    refine ⟨?_, ?_, ?_⟩
    · intro t ht
      constructor
      · intro hle
        rw [aLaneScale, hg, ht]
        simp only [if_pos hle]
      · intro hlt
        rw [aLaneScale, hg, ht]
        simp only [if_neg (not_le.mpr hlt)]
    · intro ht
      rw [aLaneScale, hg, ht]
    · rw [aLambdaEstimated, hg]
  · intro hp
    rw [aLambdaEstimated, hp]

/-- Witness for C2 at a concrete valid global-model input with 15 total and
    5 observed lanes. -/
theorem c2_lane_scale_factor_witness :
    aLaneScale (⟨true, PurchaseModel.global, 5, 2, 5, some 15, none, none,
        none, none, none⟩ : AInputs) = 3 := by
  have h := (c2_lane_scale_factor
    (⟨true, PurchaseModel.global, 5, 2, 5, some 15, none, none, none, none,
      none⟩ : AInputs) _ rfl).1 rfl
  have h2 := (h.1 15 rfl).1 (by norm_num)
  rw [h2]
  norm_num

/-- C3: the Mode B cadence classification is a pure step function of the
    coefficient of variation: below 0.4 regular, between 0.4 and 0.7
    inclusive mixed, above 0.7 random; the engine classifies exactly the
    quantity sigma / max(mu, EPSILON) and reports that classification. -/
theorem c3_cadence_step_function :
    (∀ cv : ℝ,
      (cv < 0.4 → cadenceModelOfCv cv = CadenceModel.regular) ∧
      (0.4 ≤ cv → cv ≤ 0.7 → cadenceModelOfCv cv = CadenceModel.mixed) ∧
      (0.7 < cv → cadenceModelOfCv cv = CadenceModel.random)) ∧
    (∀ tl : List ℚ,
      bCadence tl =
        cadenceModelOfCv (bIntervalStd tl / max (bIntervalMean tl) EPSILON)) ∧
    (∀ (dp : String → Option ℚ) (inp : BInputs) (tl : List ℚ),
      parseTimestampsToMonotonicMinutes dp inp.winner_timestamps = Except.ok tl →
      runWinnerTimestampsMode dp inp = Except.ok (assembleB inp tl) ∧
      (assembleB inp tl).cadence_analysis.cadence_model =
        cadenceModelOfCv (bIntervalCv tl)) := by
  refine ⟨?_, ?_, ?_⟩
  · intro cv
    exact ⟨fun h => cadenceModelOfCv_regular h,
      fun h1 h2 => cadenceModelOfCv_mixed h1 h2,
      fun h => cadenceModelOfCv_random h⟩
  · intro tl
    rfl
  · intro dp inp tl hparse
    exact ⟨parse_ok_run hparse, rfl⟩

/-- Witness for C3 at the three concrete CV values 0.2, 0.5, 0.8 and one
    parsed input. -/
theorem c3_cadence_step_function_witness :
    cadenceModelOfCv 0.2 = CadenceModel.regular ∧
    cadenceModelOfCv 0.5 = CadenceModel.mixed ∧
    cadenceModelOfCv 0.8 = CadenceModel.random :=
  ⟨(c3_cadence_step_function.1 0.2).1 (by norm_num),
   (c3_cadence_step_function.1 0.5).2.1 (by norm_num) (by norm_num),
   (c3_cadence_step_function.1 0.8).2.2 (by norm_num)⟩

theorem bRegularRemaining_nonneg {inp : BInputs} {tl : List ℚ} :
    0 ≤ bRegularRemaining inp tl := le_max_right _ _

theorem neg_mul_log_nonneg {m x : ℝ} (hm : 0 ≤ m) (h0 : 0 ≤ x) (h1 : x ≤ 1) :
    0 ≤ -m * Real.log x := by
  have hlog : Real.log x ≤ 0 := Real.log_nonpos h0 h1
  nlinarith

theorem expWaitStats_nonneg (μ : ℝ) :
    0 ≤ (expWaitStats μ).mean_interval_between_winners ∧
    0 ≤ (expWaitStats μ).expected_wait_to_next_winner ∧
    0 ≤ (expWaitStats μ).p50_wait_to_next_winner ∧
    0 ≤ (expWaitStats μ).p75_wait_to_next_winner ∧
    0 ≤ (expWaitStats μ).p90_wait_to_next_winner := by
  have hm : (0 : ℝ) ≤ max μ EPSILON := le_trans EPSILON_pos.le (le_max_right _ _)
  refine ⟨roundTo_nonneg hm, roundTo_nonneg hm, ?_, ?_, ?_⟩
  · exact roundTo_nonneg (neg_mul_log_nonneg hm (by norm_num) (by norm_num))
  · exact roundTo_nonneg (neg_mul_log_nonneg hm (by norm_num) (by norm_num))
  · exact roundTo_nonneg (neg_mul_log_nonneg hm (by norm_num) (by norm_num))

theorem regularWaitStats_nonneg {μ rr : ℝ} (hμ : 0 ≤ μ) (hrr : 0 ≤ rr) :
    0 ≤ (regularWaitStats μ rr).mean_interval_between_winners ∧
    0 ≤ (regularWaitStats μ rr).expected_wait_to_next_winner ∧
    0 ≤ (regularWaitStats μ rr).p50_wait_to_next_winner ∧
    0 ≤ (regularWaitStats μ rr).p75_wait_to_next_winner ∧
    0 ≤ (regularWaitStats μ rr).p90_wait_to_next_winner :=
  ⟨roundTo_nonneg hμ, roundTo_nonneg hrr, roundTo_nonneg hrr,
   roundTo_nonneg hrr, roundTo_nonneg hrr⟩

theorem bWaitStats_nonneg {dp : String → Option ℚ} {ts : List String}
    {inp : BInputs} {tl : List ℚ}
    (hp : parseTimestampsToMonotonicMinutes dp ts = Except.ok tl) :
    0 ≤ (bWaitStats inp tl).mean_interval_between_winners ∧
    0 ≤ (bWaitStats inp tl).expected_wait_to_next_winner ∧
    0 ≤ (bWaitStats inp tl).p50_wait_to_next_winner ∧
    0 ≤ (bWaitStats inp tl).p75_wait_to_next_winner ∧
    0 ≤ (bWaitStats inp tl).p90_wait_to_next_winner := by
  have hμ : 0 ≤ bIntervalMean tl := (bIntervalMean_pos hp).le
  have hrr : 0 ≤ bRegularRemaining inp tl := bRegularRemaining_nonneg
  cases hc : bCadence tl with
  | regular =>
    rw [bWaitStats_of_regular hc]
    exact regularWaitStats_nonneg hμ hrr
  | random =>
    rw [bWaitStats_of_random hc]
    exact expWaitStats_nonneg _
  | mixed =>
    rw [bWaitStats_of_mixed hc]
    obtain ⟨hr1, hr2, hr3, hr4, hr5⟩ := regularWaitStats_nonneg hμ hrr
    obtain ⟨he1, he2, he3, he4, he5⟩ := expWaitStats_nonneg (bIntervalMean tl)
    refine ⟨roundTo_nonneg hμ, ?_, ?_, ?_, ?_⟩
    · exact roundTo_nonneg (by positivity)
    · exact roundTo_nonneg (by positivity)
    · exact roundTo_nonneg (by positivity)
    · exact roundTo_nonneg (by positivity)

/-- Counterexample input for C4: a fractional max_wait_minutes that output
    rounding can overshoot. -/
def c4Input : AInputs :=
  ⟨true, PurchaseModel.global, 5, 2, 5, none, some 0.2, some 0.75, some 2.006,
    none, none⟩

/-- C4 counterexample: at a valid Mode A input with max_wait_minutes = 2.006
    the reported optimal_wait_minutes is 2.01, which exceeds
    max_wait_minutes, so the claimed bound optimal_wait_minutes ≤
    max_wait_minutes fails on the reported (2-decimal-rounded) value. -/
theorem c4_bounds_counterexample :
    runPurchaseRateMode c4Input = Except.ok (assembleA c4Input) ∧
    aMaxWait c4Input = 2.006 ∧
    (assembleA c4Input).recommendation.optimal_wait_minutes = 2.01 ∧
    ¬ (assembleA c4Input).recommendation.optimal_wait_minutes ≤ aMaxWait c4Input := by
  have hmw : aMaxWait c4Input = 2.006 := by
    norm_num [aMaxWait, c4Input, max_def]
  have hcons : aLambdaConservative c4Input = 2 := by
    norm_num [aLambdaConservative, aLambdaEstimated, aLambdaObserved, aLaneScale,
      aConfidenceBuffer, clamp, c4Input, max_def, min_def]
  have hT : aMeanInterval c4Input = 25 := by
    rw [aMeanInterval, hcons,
      show aKThreshold c4Input = 50 from by
        norm_num [aKThreshold, thresholdFromDay, c4Input],
      max_eq_left (by norm_num [EPSILON])]
    norm_num
  have hp : aProbabilityTarget c4Input = 3 / 4 := by
    norm_num [aProbabilityTarget, clamp, c4Input, max_def, min_def]
  have hcore : aOptimalWait c4Input = 2.006 := by
    rw [aOptimalWait, aWaitForTarget, hT, hp, hmw,
      show (25 : ℚ) * (3 / 4) = 75 / 4 by norm_num, clamp,
      min_eq_left (by norm_num), max_eq_right (by norm_num)]
  have hrep : (assembleA c4Input).recommendation.optimal_wait_minutes = 2.01 := by
    show roundTo 2 (aOptimalWait c4Input) = 2.01
    rw [hcore]
    exact roundTo_eq_of 201 (by norm_num) (by norm_num) (by norm_num)
  refine ⟨rfl, hmw, hrep, ?_⟩
  rw [hrep, hmw]
  norm_num

/-- C4 (amended): every wait-estimate field is nonnegative in both modes;
    the unrounded optimal wait lies in [1, max_wait] (Mode A) resp.
    [0, max_wait] (Mode B) for the effective max_wait = max(input, 1); the
    reported optimal wait still satisfies the lower bound but can exceed
    max_wait by up to 0.005 because of the 2-decimal output rounding. -/
theorem c4_bounds_amended :
    (∀ (inp : AInputs) (out : OutputA), runPurchaseRateMode inp = Except.ok out →
      (0 ≤ out.wait_estimates_minutes.mean_interval_between_winners ∧
       0 ≤ out.wait_estimates_minutes.expected_wait_to_next_winner ∧
       0 ≤ out.wait_estimates_minutes.p50_wait_to_next_winner ∧
       0 ≤ out.wait_estimates_minutes.p75_wait_to_next_winner ∧
       0 ≤ out.wait_estimates_minutes.p90_wait_to_next_winner) ∧
      (1 ≤ aOptimalWait inp ∧ aOptimalWait inp ≤ aMaxWait inp) ∧
      (1 ≤ out.recommendation.optimal_wait_minutes ∧
       out.recommendation.optimal_wait_minutes ≤ aMaxWait inp + 1 / 200)) ∧
    (∀ (dp : String → Option ℚ) (inp : BInputs) (out : OutputB),
      runWinnerTimestampsMode dp inp = Except.ok out →
      (0 ≤ out.wait_estimates_minutes.mean_interval_between_winners ∧
       0 ≤ out.wait_estimates_minutes.expected_wait_to_next_winner ∧
       0 ≤ out.wait_estimates_minutes.p50_wait_to_next_winner ∧
       0 ≤ out.wait_estimates_minutes.p75_wait_to_next_winner ∧
       0 ≤ out.wait_estimates_minutes.p90_wait_to_next_winner) ∧
      (∃ tl, parseTimestampsToMonotonicMinutes dp inp.winner_timestamps =
          Except.ok tl ∧
        0 ≤ bOptimalWait inp tl ∧ bOptimalWait inp tl ≤ bMaxWait inp) ∧
      (0 ≤ out.recommendation.optimal_wait_minutes ∧
       out.recommendation.optimal_wait_minutes ≤ bMaxWait inp + 1 / 200)) := by
  constructor
  · intro inp out h
    obtain ⟨_, _, _, rfl⟩ := run_a_ok h
    have hcl : 1 ≤ aOptimalWait inp := le_clamp _ _ _
    have hcu : aOptimalWait inp ≤ aMaxWait inp := clamp_le _ aMaxWait_ge_one
    refine ⟨?_, ⟨hcl, hcu⟩, ?_, ?_⟩
    · refine ⟨?_, ?_, ?_, ?_, ?_⟩
      · exact roundTo_nonneg (le_max_right _ _)
      · exact roundTo_nonneg (mul_nonneg (by norm_num) (le_max_right _ _))
      · exact roundTo_nonneg (mul_nonneg (by norm_num) (le_max_right _ _))
      · exact roundTo_nonneg (mul_nonneg (by norm_num) (le_max_right _ _))
      · exact roundTo_nonneg (mul_nonneg (by norm_num) (le_max_right _ _))
    · show (1 : ℚ) ≤ roundTo 2 (aOptimalWait inp)
      have h1 : ((1 : ℤ) : ℚ) ≤ aOptimalWait inp := by push_cast; exact hcl
      have h2 := intCast_le_roundTo (d := 2) h1
      push_cast at h2
      exact h2
    · show roundTo 2 (aOptimalWait inp) ≤ aMaxWait inp + 1 / 200
      calc roundTo 2 (aOptimalWait inp)
          ≤ aOptimalWait inp + 1 / (2 * 10 ^ 2) := roundTo_le 2 _
        _ ≤ aMaxWait inp + 1 / 200 := by
            rw [show (2 : ℚ) * 10 ^ 2 = 200 by norm_num]
            exact add_le_add_right hcu _
  · intro dp inp out h
    obtain ⟨tl, hp, rfl⟩ := run_b_ok h
    have hcl : (0 : ℝ) ≤ bOptimalWait inp tl := le_clamp _ _ _
    have hcu : bOptimalWait inp tl ≤ bMaxWait inp :=
      clamp_le _ (le_trans zero_le_one bMaxWait_ge_one)
    refine ⟨bWaitStats_nonneg hp, ⟨tl, hp, hcl, hcu⟩, ?_, ?_⟩
    · exact roundTo_nonneg hcl
    · show roundTo 2 (bOptimalWait inp tl) ≤ bMaxWait inp + 1 / 200
      calc roundTo 2 (bOptimalWait inp tl)
          ≤ bOptimalWait inp tl + 1 / (2 * 10 ^ 2) := roundTo_le 2 _
        _ ≤ bMaxWait inp + 1 / 200 := by
            rw [show (2 : ℝ) * 10 ^ 2 = 200 by norm_num]
            exact add_le_add_right hcu _

/-- Witness for C4 (amended) at one valid input per mode. -/
theorem c4_bounds_amended_witness :
    (1 : ℚ) ≤ (assembleA (⟨false, PurchaseModel.per_lane, 3, 2, 2, none, none,
        none, none, none, none⟩ : AInputs)).recommendation.optimal_wait_minutes ∧
    (0 : ℝ) ≤ (assembleB (⟨["12:00", "12:10"], none, none, none, none, none,
        none⟩ : BInputs) [720, 730]).recommendation.optimal_wait_minutes := by
  constructor
  · have hA : runPurchaseRateMode (⟨false, PurchaseModel.per_lane, 3, 2, 2,
        none, none, none, none, none, none⟩ : AInputs) =
        Except.ok (assembleA (⟨false, PurchaseModel.per_lane, 3, 2, 2, none,
          none, none, none, none, none⟩ : AInputs)) := rfl
    exact ((c4_bounds_amended.1 _ _ hA).2.2).1
  · have hparse : parseTimestampsToMonotonicMinutes (fun _ => none)
        ["12:00", "12:10"] = Except.ok [720, 730] := by
      have hadv : advanceBeyond 43200 43800 = 43800 := advanceBeyond_done (by norm_num)
      rw [parse_eq_of_bare (by decide)
        (by decide : seqOptions ((["12:00", "12:10"]).map parseHmsToSeconds) =
          some [43200, 43800])]
      simp only [monotonicFrom, hadv]
      norm_num
    exact ((c4_bounds_amended.2 _ _ _ (parse_ok_run hparse)).2.2).1

/-! Concrete mixed-cadence data for C5: timestamps 12:00, 12:02, 12:06,
    12:12 parse to the timeline below with intervals 2, 4, 6 minutes,
    mean 4, sample standard deviation 2 and CV 0.5. -/

def c5Timeline : List ℚ := [720, 722, 726, 732]

theorem c5_parse :
    parseTimestampsToMonotonicMinutes (fun _ => none)
      ["12:00", "12:02", "12:06", "12:12"] = Except.ok c5Timeline := by
  have ha1 : advanceBeyond 43200 43320 = 43320 := advanceBeyond_done (by norm_num)
  have ha2 : advanceBeyond 43320 43560 = 43560 := advanceBeyond_done (by norm_num)
  have ha3 : advanceBeyond 43560 43920 = 43920 := advanceBeyond_done (by norm_num)
  rw [parse_eq_of_bare (by decide)
    (by decide : seqOptions ((["12:00", "12:02", "12:06", "12:12"]).map
      parseHmsToSeconds) = some [43200, 43320, 43560, 43920])]
  simp only [monotonicFrom, ha1, ha2, ha3]
  rw [c5Timeline]
  norm_num

theorem c5Timeline_intervals : bIntervals c5Timeline = [2, 4, 6] := by
  rw [bIntervals, c5Timeline]
  norm_num [intervalsFromTimeline]

theorem c5Timeline_mean : bIntervalMean c5Timeline = 4 := by
  rw [bIntervalMean, c5Timeline_intervals, mean]
  norm_num

theorem c5Timeline_std : bIntervalStd c5Timeline = 2 := by
  rw [bIntervalStd, c5Timeline_intervals, sampleStd, if_neg (by norm_num)]
  have hm : mean ([2, 4, 6] : List ℝ) = 4 := by rw [mean]; norm_num
  simp only [hm, List.map_cons, List.map_nil, List.sum_cons, List.sum_nil,
    List.length_cons, List.length_nil]
  rw [show ((((2 : ℝ) - 4) ^ 2 + ((4 - 4) ^ 2 + ((6 - 4) ^ 2 + 0))) /
      (((0 : ℕ) + 1 + 1 + 1 : ℕ) - 1 : ℝ)) = (2 : ℝ) ^ 2 by push_cast; norm_num]
  exact Real.sqrt_sq (by norm_num)

theorem c5Timeline_cv : bIntervalCv c5Timeline = 0.5 := by
  rw [bIntervalCv, c5Timeline_std, c5Timeline_mean,
    max_eq_left (by norm_num [EPSILON])]
  norm_num

/-- Counterexample input for C5: the mixed-cadence timestamps above with
    elapsed 0 and max_wait_minutes 1, so that the clamp binds. -/
def c5Input : BInputs :=
  ⟨["12:00", "12:02", "12:06", "12:12"], some 0, none, some 1, none, none, none⟩

theorem c5Input_rr : bRegularRemaining c5Input c5Timeline = 4 := by
  rw [bRegularRemaining, c5Timeline_mean,
    show bElapsed c5Input = 0 from by norm_num [bElapsed, c5Input, max_def]]
  norm_num

theorem c5Input_rwt :
    bRandomWaitForTarget c5Input c5Timeline = 4 * Real.log 4 := by
  rw [bRandomWaitForTarget, c5Timeline_mean,
    show bProbabilityTarget c5Input = 0.75 from by
      norm_num [bProbabilityTarget, c5Input, clamp, max_def, min_def],
    show (1 : ℝ) - 0.75 = (4 : ℝ)⁻¹ by norm_num, Real.log_inv]
  ring

/-- C5 counterexample: for the mixed-cadence input above (CV = 0.5) with
    max_wait_minutes = 1, the reported recommended wait is 1, while the
    arithmetic mean of the regular remaining wait and the exponential
    target wait is (4 + 4 ln 4)/2 > 1: the claimed equality fails because
    the code clamps the blend to [0, max_wait] (and rounds it). -/
theorem c5_mixed_blend_counterexample :
    parseTimestampsToMonotonicMinutes (fun _ => none)
      c5Input.winner_timestamps = Except.ok c5Timeline ∧
    bCadence c5Timeline = CadenceModel.mixed ∧
    bRegularRemaining c5Input c5Timeline = 4 ∧
    bRandomWaitForTarget c5Input c5Timeline = 4 * Real.log 4 ∧
    (assembleB c5Input c5Timeline).recommendation.optimal_wait_minutes = 1 ∧
    (bRegularRemaining c5Input c5Timeline +
      bRandomWaitForTarget c5Input c5Timeline) / 2 ≠ 1 := by
  have hlog : 0 < Real.log 4 := Real.log_pos (by norm_num)
  have hmix : bCadence c5Timeline = CadenceModel.mixed := by
    rw [bCadence_eq, c5Timeline_cv]
    exact cadenceModelOfCv_mixed (by norm_num) (by norm_num)
  have hmw : bMaxWait c5Input = 1 := by
    norm_num [bMaxWait, c5Input, max_def]
  have hopt : bOptimalWait c5Input c5Timeline = 1 := by
    rw [bOptimalWait_of_mixed hmix, c5Input_rr, c5Input_rwt, hmw, clamp,
      min_eq_left (by nlinarith), max_eq_right (by norm_num)]
  refine ⟨c5_parse, hmix, c5Input_rr, c5Input_rwt, ?_, ?_⟩
  · show roundTo 2 (bOptimalWait c5Input c5Timeline) = 1
    rw [hopt]
    exact roundTo_one 2
  · rw [c5Input_rr, c5Input_rwt]
    intro h
    nlinarith

/-- C5 (amended): with mixed cadence (0.4 ≤ CV ≤ 0.7) each of the
    p50/p75/p90 fields is the 2-decimal rounding of the arithmetic mean of
    the corresponding (already rounded) regular and exponential output
    fields; the expected-wait field is the rounded mean of the regular
    output field and the unrounded mean interval; and the recommended wait
    is the mean of the regular remaining wait and the exponential target
    wait −μ ln(1 − target), clamped to [0, max_wait] and then rounded for
    the report. -/
theorem c5_mixed_blend_amended (dp : String → Option ℚ) (inp : BInputs)
    (tl : List ℚ)
    (hparse : parseTimestampsToMonotonicMinutes dp inp.winner_timestamps =
      Except.ok tl)
    (h1 : 0.4 ≤ bIntervalCv tl) (h2 : bIntervalCv tl ≤ 0.7) :
    bCadence tl = CadenceModel.mixed ∧
    (bWaitStats inp tl).p50_wait_to_next_winner =
      roundTo 2
        (((regularWaitStats (bIntervalMean tl) (bRegularRemaining inp tl)).p50_wait_to_next_winner
          + (expWaitStats (bIntervalMean tl)).p50_wait_to_next_winner) / 2) ∧
    (bWaitStats inp tl).p75_wait_to_next_winner =
      roundTo 2
        (((regularWaitStats (bIntervalMean tl) (bRegularRemaining inp tl)).p75_wait_to_next_winner
          + (expWaitStats (bIntervalMean tl)).p75_wait_to_next_winner) / 2) ∧
    (bWaitStats inp tl).p90_wait_to_next_winner =
      roundTo 2
        (((regularWaitStats (bIntervalMean tl) (bRegularRemaining inp tl)).p90_wait_to_next_winner
          + (expWaitStats (bIntervalMean tl)).p90_wait_to_next_winner) / 2) ∧
    (bWaitStats inp tl).expected_wait_to_next_winner =
      roundTo 2
        (((regularWaitStats (bIntervalMean tl) (bRegularRemaining inp tl)).expected_wait_to_next_winner
          + bIntervalMean tl) / 2) ∧
    bOptimalWait inp tl =
      clamp ((bRegularRemaining inp tl +
        (-bIntervalMean tl * Real.log (1 - bProbabilityTarget inp))) / 2)
        0 (bMaxWait inp) ∧
    (assembleB inp tl).recommendation.optimal_wait_minutes =
      roundTo 2 (bOptimalWait inp tl) := by
  have hc : bCadence tl = CadenceModel.mixed := by
    rw [bCadence_eq]
    exact cadenceModelOfCv_mixed h1 h2
  refine ⟨hc, ?_, ?_, ?_, ?_, ?_, rfl⟩
  · rw [bWaitStats_of_mixed hc]
  · rw [bWaitStats_of_mixed hc]
  · rw [bWaitStats_of_mixed hc]
  · rw [bWaitStats_of_mixed hc]
  · rw [bOptimalWait_of_mixed hc, bRandomWaitForTarget]

/-- Witness for C5 (amended) at the concrete mixed-cadence input. -/
theorem c5_mixed_blend_amended_witness :
    bCadence c5Timeline = CadenceModel.mixed ∧
    bOptimalWait c5Input c5Timeline =
      clamp ((bRegularRemaining c5Input c5Timeline +
        (-bIntervalMean c5Timeline *
          Real.log (1 - bProbabilityTarget c5Input))) / 2)
        0 (bMaxWait c5Input) := by
  have h := c5_mixed_blend_amended (fun _ => none) c5Input c5Timeline c5_parse
    (by rw [c5Timeline_cv]; norm_num) (by rw [c5Timeline_cv]; norm_num)
  exact ⟨h.1, h.2.2.2.2.2.1⟩

/-- C6: when every timestamp parses as bare HH:MM[:SS] the derived timeline
    is strictly increasing (each sample is advanced by 24 hours past the
    running cursor); the concrete pair 23:58, 00:05 yields the timeline
    1438, 1445 absolute minutes with the positive 7-minute interval. -/
theorem c6_bare_time_monotonic :
    (∀ (dp : String → Option ℚ) (ts : List String) (tl : List ℚ),
      (∀ s ∈ ts, (parseHmsToSeconds s).isSome) →
      parseTimestampsToMonotonicMinutes dp ts = Except.ok tl →
      List.Chain' (fun a b => a < b) tl) ∧
    parseTimestampsToMonotonicMinutes (fun _ => none) ["23:58", "00:05"] =
      Except.ok [1438, 1445] ∧
    intervalsFromTimeline ([1438, 1445] : List ℚ) = [7] := by
  refine ⟨?_, ?_, ?_⟩
  · intro dp ts tl _ h
    exact (parse_ok_spec h).1
  · have hstep : advanceBeyond 86280 300 = 86700 := by
      rw [advanceBeyond_step (by norm_num), advanceBeyond_done (by norm_num)]
    rw [parse_eq_of_bare (by decide)
      (by decide : seqOptions ((["23:58", "00:05"]).map parseHmsToSeconds) =
        some [86280, 300])]
    simp only [monotonicFrom, hstep]
    norm_num
  · norm_num [intervalsFromTimeline]

/-- Witness for C6: the midnight-spanning timeline is strictly increasing. -/
theorem c6_bare_time_monotonic_witness :
    List.Chain' (fun a b : ℚ => a < b) [1438, 1445] :=
  c6_bare_time_monotonic.1 (fun _ => none) ["23:58", "00:05"] _ (by decide)
    c6_bare_time_monotonic.2.1

/-- C7: if some timestamp fails bare-time parsing, the engine errors unless
    every entry is accepted by the date-time parser (abstracted as dp) and
    the parsed values are strictly increasing; when they all parse and are
    increasing, the run succeeds on the millisecond-to-minute timeline. -/
theorem c7_invalid_timestamps_error (dp : String → Option ℚ) (inp : BInputs)
    (hbare : ∃ s ∈ inp.winner_timestamps, parseHmsToSeconds s = none) :
    ((∀ ms : List ℚ, seqOptions (inp.winner_timestamps.map dp) = some ms →
        ¬ List.Chain' (fun a b => a < b) ms) →
      ∃ e, runWinnerTimestampsMode dp inp = Except.error e) ∧
    (∀ ms : List ℚ, seqOptions (inp.winner_timestamps.map dp) = some ms →
      List.Chain' (fun a b => a < b) ms → 2 ≤ inp.winner_timestamps.length →
      runWinnerTimestampsMode dp inp =
        Except.ok (assembleB inp (ms.map (fun v => v / 60000)))) := by
  obtain ⟨s, hs, hnone⟩ := hbare
  have hb : seqOptions (inp.winner_timestamps.map parseHmsToSeconds) = none := by
    apply seqOptions_none_of_mem
    have hmem : parseHmsToSeconds s ∈ inp.winner_timestamps.map parseHmsToSeconds :=
      List.mem_map_of_mem _ hs
    rw [hnone] at hmem
    exact hmem
  constructor
  · intro hbad
    by_cases hlen : inp.winner_timestamps.length < 2
    · exact ⟨_, by rw [runWinnerTimestampsMode, if_pos hlen]⟩
    · rcases hd : seqOptions (inp.winner_timestamps.map dp) with _ | ms
      · exact ⟨_, by
          rw [runWinnerTimestampsMode, if_neg hlen,
            parse_eq_of_iso_fail hlen hb hd]
          rfl⟩
      · exact ⟨_, by
          rw [runWinnerTimestampsMode, if_neg hlen, parse_eq_of_iso hlen hb hd,
            if_neg (hbad ms hd)]
          rfl⟩
  · intro ms hd hchain hlen2
    have hlen : ¬ inp.winner_timestamps.length < 2 := by omega
    rw [runWinnerTimestampsMode, if_neg hlen, parse_eq_of_iso hlen hb hd,
      if_pos hchain]
    rfl

/-- Witness input for C7: one bare-time entry mixed with one date-time
    entry. -/
def c7Input : BInputs :=
  ⟨["12:05", "2099-01-01T00:00:00Z"], none, none, none, none, none, none⟩

/-- Witness for C7: mixing a bare time with a date-time string raises a
    validation error under a Date.parse oracle that accepts only the
    date-time entry. -/
theorem c7_invalid_timestamps_error_witness :
    ∃ e, runWinnerTimestampsMode
      (fun s => if s = "2099-01-01T00:00:00Z" then some 4070908800000 else none)
      c7Input = Except.error e := by
  have hseq : seqOptions (c7Input.winner_timestamps.map
      (fun s => if s = "2099-01-01T00:00:00Z" then some (4070908800000 : ℚ)
        else none)) = none := by decide
  refine (c7_invalid_timestamps_error _ c7Input
    ⟨"2099-01-01T00:00:00Z", by decide, by decide⟩).1 ?_
  intro ms hms
  rw [hseq] at hms
  exact Option.noConfusion hms

/-- Counterexample input for C8: a target probability with five decimal
    places. -/
def c8Input : AInputs :=
  ⟨true, PurchaseModel.global, 5, 2, 5, none, some 0.2, some 0.60007, some 30,
    none, none⟩

/-- C8 counterexample: at a valid Mode A input with target 0.60007 and
    neither bound binding, the reported success probability is the
    4-decimal rounding 0.6001, not the clamped target 0.60007, so the
    claimed equality with the clamped target fails. -/
theorem c8_target_probability_counterexample :
    runPurchaseRateMode c8Input = Except.ok (assembleA c8Input) ∧
    aProbabilityTarget c8Input = 0.60007 ∧
    1 ≤ aWaitForTarget c8Input ∧ aWaitForTarget c8Input ≤ aMaxWait c8Input ∧
    (assembleA c8Input).recommendation.probability_next_winner_within_optimal_wait
      = 0.6001 ∧
    (assembleA c8Input).recommendation.probability_next_winner_within_optimal_wait
      ≠ aProbabilityTarget c8Input := by
  have hcons : aLambdaConservative c8Input = 2 := by
    norm_num [aLambdaConservative, aLambdaEstimated, aLambdaObserved, aLaneScale,
      aConfidenceBuffer, clamp, c8Input, max_def, min_def]
  have hT : aMeanInterval c8Input = 25 := by
    rw [aMeanInterval, hcons,
      show aKThreshold c8Input = 50 from by
        norm_num [aKThreshold, thresholdFromDay, c8Input],
      max_eq_left (by norm_num [EPSILON])]
    norm_num
  have hpt : aProbabilityTarget c8Input = 0.60007 := by
    norm_num [aProbabilityTarget, clamp, c8Input, max_def, min_def]
  have hw : aWaitForTarget c8Input = 15.00175 := by
    rw [aWaitForTarget, hT, hpt]
    norm_num
  have hmw : aMaxWait c8Input = 30 := by
    norm_num [aMaxWait, c8Input, max_def]
  have hopt : aOptimalWait c8Input = 15.00175 := by
    rw [aOptimalWait, hw, hmw]
    exact clamp_eq_self (by norm_num) (by norm_num)
  have hprob : aProbabilityWithinOptimal c8Input = 0.60007 := by
    rw [aProbabilityWithinOptimal, probabilityWithinUniform,
      if_neg (by rw [hT]; norm_num), hopt, hT,
      show (15.00175 : ℚ) / 25 = 0.60007 by norm_num]
    exact clamp_eq_self (by norm_num) (by norm_num)
  have hrep : (assembleA c8Input).recommendation.probability_next_winner_within_optimal_wait
      = 0.6001 := by
    show roundTo 4 (aProbabilityWithinOptimal c8Input) = 0.6001
    rw [hprob]
    exact roundTo_eq_of 6001 (by norm_num) (by norm_num) (by norm_num)
  refine ⟨rfl, hpt, by rw [hw]; norm_num, by rw [hw, hmw]; norm_num, hrep, ?_⟩
  rw [hrep, hpt]
  norm_num

/-- C8 (amended): the recommended wait is clamp(T·target, 1, max_wait) and
    the internal success probability is clamp(optimal/T, 0, 1); the
    reported fields are their 2- resp. 4-decimal roundings; when neither
    the 1-minute floor nor the max_wait ceiling binds, the internal
    probability equals the clamped target exactly and the reported value
    is that target rounded to 4 decimals. -/
theorem c8_target_probability_amended (inp : AInputs) (out : OutputA)
    (h : runPurchaseRateMode inp = Except.ok out) :
    aOptimalWait inp =
      clamp (aMeanInterval inp * aProbabilityTarget inp) 1 (aMaxWait inp) ∧
    out.recommendation.optimal_wait_minutes = roundTo 2 (aOptimalWait inp) ∧
    aProbabilityWithinOptimal inp =
      clamp (aOptimalWait inp / aMeanInterval inp) 0 1 ∧
    out.recommendation.probability_next_winner_within_optimal_wait =
      roundTo 4 (aProbabilityWithinOptimal inp) ∧
    (1 ≤ aWaitForTarget inp → aWaitForTarget inp ≤ aMaxWait inp →
      aProbabilityWithinOptimal inp = aProbabilityTarget inp ∧
      out.recommendation.probability_next_winner_within_optimal_wait =
        roundTo 4 (aProbabilityTarget inp)) := by
  obtain ⟨_, _, _, rfl⟩ := run_a_ok h
  have hT : 0 < aMeanInterval inp := aMeanInterval_pos
  have hclamp : aProbabilityWithinOptimal inp =
      clamp (aOptimalWait inp / aMeanInterval inp) 0 1 := by
    rw [aProbabilityWithinOptimal, probabilityWithinUniform,
      if_neg (not_le.mpr hT)]
  refine ⟨rfl, rfl, hclamp, rfl, ?_⟩
  intro h1 h2
  have hopt : aOptimalWait inp = aWaitForTarget inp := clamp_eq_self h1 h2
  have hprob : aProbabilityWithinOptimal inp = aProbabilityTarget inp := by
    rw [hclamp, hopt, aWaitForTarget,
      mul_div_cancel_left₀ _ (ne_of_gt hT)]
    exact clamp_eq_self (le_trans (by norm_num) aProbabilityTarget_lb)
      (le_trans aProbabilityTarget_ub (by norm_num))
  exact ⟨hprob, by show roundTo 4 (aProbabilityWithinOptimal inp) = _; rw [hprob]⟩

/-- Witness input for C8 (amended): a valid weekend input whose target wait
    lies strictly between the bounds. -/
def c8WInput : AInputs :=
  ⟨true, PurchaseModel.global, 4, 2, 4, none, none, none, none, none, none⟩

/-- Witness for C8 (amended): with neither bound binding, the internal
    probability equals the clamped target. -/
theorem c8_target_probability_amended_witness :
    aProbabilityWithinOptimal c8WInput = aProbabilityTarget c8WInput := by
  have hcons : aLambdaConservative c8WInput = 8 / 5 := by
    norm_num [aLambdaConservative, aLambdaEstimated, aLambdaObserved, aLaneScale,
      aConfidenceBuffer, clamp, c8WInput, max_def, min_def]
  have hT : aMeanInterval c8WInput = 125 / 4 := by
    rw [aMeanInterval, hcons,
      show aKThreshold c8WInput = 50 from by
        norm_num [aKThreshold, thresholdFromDay, c8WInput],
      max_eq_left (by norm_num [EPSILON])]
    norm_num
  have hw : aWaitForTarget c8WInput = 375 / 16 := by
    rw [aWaitForTarget, hT,
      show aProbabilityTarget c8WInput = 3 / 4 from by
        norm_num [aProbabilityTarget, clamp, c8WInput, max_def, min_def]]
    norm_num
  have hmw : aMaxWait c8WInput = 30 := by
    norm_num [aMaxWait, c8WInput, max_def]
  exact ((c8_target_probability_amended c8WInput _ rfl).2.2.2.2
    (by rw [hw]; norm_num) (by rw [hw, hmw]; norm_num)).1

theorem economicsFor_none_left {α : Type} [LinearOrderedField α] [FloorRing α]
    (tv : Option α) (p m mw w : α) :
    economicsFor none tv p m mw w = none := by
  cases tv <;> rfl

theorem economicsFor_none_right {α : Type} [LinearOrderedField α] [FloorRing α]
    (ebv : Option α) (p m mw w : α) :
    economicsFor ebv none p m mw w = none := by
  cases ebv <;> rfl

theorem economicsFor_some {α : Type} [LinearOrderedField α] [FloorRing α]
    (b t p m mw w : α) :
    economicsFor (some b) (some t) p m mw w =
      if b < 0 ∨ t < 0 then none
      else some
        { expected_value_for_optimal_wait := roundTo 2 (p * b)
          expected_time_cost_for_optimal_wait := roundTo 2 (w * t)
          net_expected_value_for_optimal_wait := roundTo 2 (p * b - w * t)
          value_expected_per_minute := roundTo 2 (b / max m EPSILON)
          break_even_wait_minutes :=
            roundTo 2 (if t = 0 then mw else clamp (b / t) 0 mw) } := rfl

/-- C9 (amended): the economics block is present iff both monetary inputs
    are supplied and nonnegative; when present, break_even_wait_minutes is
    the 2-decimal rounding of max_wait when time_value_per_minute = 0 and
    of clamp(bonus / time_value, 0, max_wait) otherwise; both pipelines
    attach exactly this block. -/
theorem c9_economics_presence_amended :
    (∀ (α : Type) [LinearOrderedField α] [FloorRing α]
      (ebv tv : Option α) (p m mw w : α),
      ((economicsFor ebv tv p m mw w).isSome ↔
        (∃ b, ebv = some b ∧ 0 ≤ b) ∧ ∃ t, tv = some t ∧ 0 ≤ t)) ∧
    (∀ (α : Type) [LinearOrderedField α] [FloorRing α] (b t p m mw w : α),
      0 ≤ b → 0 ≤ t →
      (economicsFor (some b) (some t) p m mw w).map
          (fun e => e.break_even_wait_minutes) =
        some (roundTo 2 (if t = 0 then mw else clamp (b / t) 0 mw))) ∧
    (∀ (inp : AInputs) (out : OutputA), runPurchaseRateMode inp = Except.ok out →
      out.economics = economicsFor inp.expected_bonus_value
        inp.time_value_per_minute (aProbabilityWithinOptimal inp)
        (aMeanInterval inp) (aMaxWait inp) (roundTo 2 (aOptimalWait inp))) ∧
    (∀ (dp : String → Option ℚ) (inp : BInputs) (out : OutputB),
      runWinnerTimestampsMode dp inp = Except.ok out →
      ∃ tl, parseTimestampsToMonotonicMinutes dp inp.winner_timestamps =
          Except.ok tl ∧
        out.economics = economicsFor inp.expected_bonus_value
          inp.time_value_per_minute (bProbabilityWithinOptimal inp tl)
          (bIntervalMean tl) (bMaxWait inp) (roundTo 2 (bOptimalWait inp tl))) := by
  refine ⟨?_, ?_, ?_, ?_⟩
  · intro α _ _ ebv tv p m mw w
    cases ebv with
    | none => simp [economicsFor_none_left]
    | some b =>
      cases tv with
      | none => simp [economicsFor_none_right]
      | some t =>
        rw [economicsFor_some]
        by_cases hbt : b < 0 ∨ t < 0
        · rw [if_pos hbt]
          constructor
          · intro hs
            exact absurd hs (by simp)
          · rintro ⟨⟨b2, hb2, hb0⟩, ⟨t2, ht2, ht0⟩⟩
            rw [Option.some.injEq] at hb2 ht2
            subst hb2
            subst ht2
            rcases hbt with hlt | hlt <;> linarith
        · rw [if_neg hbt]
          push_neg at hbt
          constructor
          · intro _
            exact ⟨⟨b, rfl, hbt.1⟩, ⟨t, rfl, hbt.2⟩⟩
          · intro _
            rfl
  · intro α _ _ b t p m mw w hb ht
    rw [economicsFor_some, if_neg (by push_neg; exact ⟨hb, ht⟩)]
    rfl
  · intro inp out h
    obtain ⟨_, _, _, rfl⟩ := run_a_ok h
    rfl
  · intro dp inp out h
    obtain ⟨tl, hp, rfl⟩ := run_b_ok h
    exact ⟨tl, hp, rfl⟩

/-- Witness for C9 (amended) at concrete rational monetary inputs. -/
theorem c9_economics_presence_amended_witness :
    (economicsFor (some (5 : ℚ)) (some 2) 1 10 30 3).isSome = true ∧
    (economicsFor (some (5 : ℚ)) (some 2) 1 10 30 3).map
        (fun e => e.break_even_wait_minutes) =
      some (roundTo 2 (if (2 : ℚ) = 0 then 30 else clamp (5 / 2) 0 30)) := by
  constructor
  · exact (c9_economics_presence_amended.1 ℚ (some 5) (some 2) 1 10 30 3).mpr
      ⟨⟨5, rfl, by norm_num⟩, ⟨2, rfl, by norm_num⟩⟩
  · exact c9_economics_presence_amended.2.1 ℚ 5 2 1 10 30 3
      (by norm_num) (by norm_num)

/-- Counterexample input for C9: time value 0 with a fractional max_wait. -/
def c9Input : AInputs :=
  ⟨true, PurchaseModel.global, 5, 2, 5, none, some 0.2, some 0.75, some 2.006,
    some 5, some 0⟩

/-- C9 counterexample: with time_value_per_minute = 0 and
    max_wait_minutes = 2.006 the reported break_even_wait_minutes is the
    rounding 2.01, not max_wait itself, so the claimed equality
    break_even = max_wait fails on the reported value. -/
theorem c9_economics_presence_counterexample :
    runPurchaseRateMode c9Input = Except.ok (assembleA c9Input) ∧
    c9Input.time_value_per_minute = some 0 ∧
    aMaxWait c9Input = 2.006 ∧
    (assembleA c9Input).economics.map (fun e => e.break_even_wait_minutes) =
      some 2.01 ∧
    ¬ (assembleA c9Input).economics.map (fun e => e.break_even_wait_minutes) =
      some (aMaxWait c9Input) := by
  have hmw : aMaxWait c9Input = 2.006 := by
    norm_num [aMaxWait, c9Input, max_def]
  have hecon : (assembleA c9Input).economics.map
      (fun e => e.break_even_wait_minutes) =
      some (roundTo 2 (aMaxWait c9Input)) := by
    show ((economicsFor (some (5 : ℚ)) (some 0) (aProbabilityWithinOptimal c9Input)
      (aMeanInterval c9Input) (aMaxWait c9Input)
      (roundTo 2 (aOptimalWait c9Input))).map
        (fun e => e.break_even_wait_minutes)) = _
    rw [economicsFor_some, if_neg (by norm_num)]
    simp only [Option.map_some']
    simp
  have hval : roundTo 2 (aMaxWait c9Input) = 2.01 := by
    rw [hmw]
    exact roundTo_eq_of 201 (by norm_num) (by norm_num) (by norm_num)
  refine ⟨rfl, rfl, hmw, by rw [hecon, hval], ?_⟩
  rw [hecon, hval, hmw]
  simp only [Option.some.injEq]
  norm_num

/-- C10: for a regular-cadence Mode B input whose remaining wait
    max(mu − elapsed, 0) does not exceed the effective max_wait, the
    internal success probability is exactly 1 and the reported value is 1. -/
theorem c10_regular_probability_one (dp : String → Option ℚ) (inp : BInputs)
    (tl : List ℚ)
    (hparse : parseTimestampsToMonotonicMinutes dp inp.winner_timestamps =
      Except.ok tl)
    (hreg : bCadence tl = CadenceModel.regular)
    (hrem : bRegularRemaining inp tl ≤ bMaxWait inp) :
    bProbabilityWithinOptimal inp tl = 1 ∧
    (assembleB inp tl).recommendation.probability_next_winner_within_optimal_wait
      = 1 := by
  have hrr0 : 0 ≤ bRegularRemaining inp tl := bRegularRemaining_nonneg
  have hopt : bOptimalWait inp tl = bRegularRemaining inp tl := by
    rw [bOptimalWait_of_regular hreg]
    exact clamp_eq_self hrr0 hrem
  have hprob : bProbabilityWithinOptimal inp tl = 1 := by
    rw [bProbability_of_regular hreg, bRegularProbability]
    by_cases hre : bRegularRemaining inp tl ≤ EPSILON
    · rw [if_pos hre]
    · have hlt : EPSILON < bRegularRemaining inp tl := not_le.mp hre
      rw [if_neg hre, hopt, max_eq_left hlt.le,
        div_self (ne_of_gt (lt_trans EPSILON_pos hlt))]
      exact clamp_eq_self (by norm_num) (by norm_num)
  refine ⟨hprob, ?_⟩
  show roundTo 4 (bProbabilityWithinOptimal inp tl) = 1
  rw [hprob]
  exact roundTo_one 4

/-- Witness input for C10: four evenly spaced announcements, 6 minutes
    elapsed. -/
def c10Input : BInputs :=
  ⟨["12:00", "12:10", "12:20", "12:30"], some 6, none, none, none, none, none⟩

theorem c10_parse :
    parseTimestampsToMonotonicMinutes (fun _ => none)
      c10Input.winner_timestamps = Except.ok [720, 730, 740, 750] := by
  show parseTimestampsToMonotonicMinutes (fun _ => none)
    ["12:00", "12:10", "12:20", "12:30"] = Except.ok [720, 730, 740, 750]
  have ha1 : advanceBeyond 43200 43800 = 43800 := advanceBeyond_done (by norm_num)
  have ha2 : advanceBeyond 43800 44400 = 44400 := advanceBeyond_done (by norm_num)
  have ha3 : advanceBeyond 44400 45000 = 45000 := advanceBeyond_done (by norm_num)
  rw [parse_eq_of_bare (by decide)
    (by decide : seqOptions ((["12:00", "12:10", "12:20", "12:30"]).map
      parseHmsToSeconds) = some [43200, 43800, 44400, 45000])]
  simp only [monotonicFrom, ha1, ha2, ha3]
  norm_num

theorem c10_mean : bIntervalMean [720, 730, 740, 750] = 10 := by
  rw [bIntervalMean,
    show bIntervals [720, 730, 740, 750] = [10, 10, 10] from by
      rw [bIntervals]; norm_num [intervalsFromTimeline],
    mean]
  norm_num

theorem c10_regular : bCadence [720, 730, 740, 750] = CadenceModel.regular := by
  have hstd : bIntervalStd [720, 730, 740, 750] = 0 := by
    rw [bIntervalStd,
      show bIntervals [720, 730, 740, 750] = [10, 10, 10] from by
        rw [bIntervals]; norm_num [intervalsFromTimeline],
      sampleStd, if_neg (by norm_num)]
    have hm : mean ([10, 10, 10] : List ℝ) = 10 := by rw [mean]; norm_num
    simp only [hm, List.map_cons, List.map_nil, List.sum_cons, List.sum_nil,
      List.length_cons, List.length_nil]
    rw [show ((((10 : ℝ) - 10) ^ 2 + ((10 - 10) ^ 2 + ((10 - 10) ^ 2 + 0))) /
        (((0 : ℕ) + 1 + 1 + 1 : ℕ) - 1 : ℝ)) = (0 : ℝ) by push_cast; norm_num]
    exact Real.sqrt_zero
  rw [bCadence_eq, bIntervalCv, hstd, zero_div]
  exact cadenceModelOfCv_regular (by norm_num)

/-- Witness for C10 at the concrete regular-cadence input. -/
theorem c10_regular_probability_one_witness :
    bProbabilityWithinOptimal c10Input [720, 730, 740, 750] = 1 := by
  have hrem : bRegularRemaining c10Input [720, 730, 740, 750] ≤
      bMaxWait c10Input := by
    rw [bRegularRemaining, c10_mean,
      show bElapsed c10Input = 6 from by
        norm_num [bElapsed, c10Input, max_def],
      show bMaxWait c10Input = 30 from by
        norm_num [bMaxWait, c10Input, max_def]]
    norm_num [max_def]
  exact (c10_regular_probability_one (fun _ => none) c10Input _ c10_parse
    c10_regular hrem).1

end Alkosto
